import Mathlib

/-!
Verification development for the jalsp parser-generator toolkit.

The definitions below are a shallow embedding of the TypeScript sources:
grammar symbols and productions (lr/utils-obj.ts), the FIRST/FOLLOW and
closure computations and the conflict-resolution logic of the LR generator
(lr/utils.ts, lr/types.ts, lr/gen-slr.ts, lr/gen-lalr.ts), the shift-reduce
parse driver (lr/parser.ts), the parser and lexer serialization
(lr/parser.ts, lexer/lexer.ts), the lexer engine (lexer/lexer.ts) and the
EBNF-to-BNF lowering (ebnf/ebnf.ts).

JavaScript Sets are modelled as duplicate-free lists in insertion order
(symbols are interned per generator instance, so reference identity in the
source coincides with structural identity here); JavaScript objects and
Maps are modelled as association lists in insertion order.  Unbounded
while-loops of the source are given an explicit fuel parameter; all claims
evaluated on concrete inputs use ample fuel.  Diagnostic message payloads
that the source builds only for human-readable errors (conflicting items
recorded in actionTrack) are abstracted into structured error kinds; the
error/no-error behaviour is preserved exactly.
-/

namespace Jalsp

/-! ## Grammar symbols (lr/utils-obj.ts) -/

/-- Tagged grammar symbol: Terminal, NonTerminal, or the Epsilon singleton.
EpsilonSymbol extends T with name "ε" in the source. -/
inductive GSymbol where
  | t (name : String)
  | nt (name : String)
  | epsSym
  deriving DecidableEq, Repr

/-- Mirrors the name field (EpsilonSymbol is constructed with name "ε"). -/
def GSymbol.name : GSymbol → String
  | .t n => n
  | .nt n => n
  | .epsSym => "ε"

/-- Mirrors toString: NT wraps the name in angle brackets, T returns the name. -/
def GSymbol.toStr : GSymbol → String
  | .t n => n
  | .nt n => "<<" ++ n ++ ">>"
  | .epsSym => "ε"

/-- Mirrors isTerminal (instanceof T; EpsilonSymbol extends T). -/
def isTerminal : GSymbol → Bool
  | .t _ => true
  | .nt _ => false
  | .epsSym => true

/-- Mirrors isNonTerminal (instanceof NT). -/
def isNonTerminal : GSymbol → Bool
  | .nt _ => true
  | _ => false

/-- Mirrors GSymbol.equals: both Epsilon, or both T with equal names
(Epsilon counts as a T named "ε"), or both NT with equal names. -/
def gsymEquals (x y : GSymbol) : Bool :=
  match x, y with
  | .epsSym, .epsSym => true
  | .epsSym, .t n => "ε" = n
  | .t n, .epsSym => n = "ε"
  | .t n, .t m => n = m
  | .nt n, .nt m => n = m
  | _, _ => false

/-! ## JavaScript collections as lists

A JS Set is a duplicate-free list in insertion order; add2 and addSet2
(utils/array-extension.ts) report whether the size grew.  A JS object or
Map is an association list; setting an existing key updates it in place,
a new key is appended. -/

/-- Mirrors Set.prototype.add restricted to interned elements: append if absent. -/
def jsAdd {α : Type} [DecidableEq α] (xs : List α) (x : α) : List α :=
  if x ∈ xs then xs else xs ++ [x]

/-- Mirrors add2: add and report whether the set grew. -/
def jsAdd2 {α : Type} [DecidableEq α] (xs : List α) (x : α) : List α × Bool :=
  if x ∈ xs then (xs, false) else (xs ++ [x], true)

/-- Mirrors addSet2: add every element of the second set, reporting growth. -/
def jsAddSet2 {α : Type} [DecidableEq α] (xs ys : List α) : List α × Bool :=
  ys.foldl (fun (acc : List α × Bool) y =>
    let r := jsAdd2 acc.1 y
    (r.1, acc.2 || r.2)) (xs, false)

/-- Association-list lookup (JS object / Map get). -/
def aget {α : Type} (m : List (String × α)) (k : String) : Option α :=
  (m.find? (fun p => p.1 = k)).map (fun p => p.2)

/-- Association-list update: existing key is updated in place, new key appended. -/
def aset {α : Type} (m : List (String × α)) (k : String) (v : α) : List (String × α) :=
  if (m.find? (fun p => p.1 = k)).isSome then
    m.map (fun p => if p.1 = k then (k, v) else p)
  else m ++ [(k, v)]

/-- Nat-keyed association lookup (sparse JS array / numeric object keys). -/
def nget {α : Type} (m : List (Nat × α)) (k : Nat) : Option α :=
  (m.find? (fun p => p.1 = k)).map (fun p => p.2)

/-- Nat-keyed association update. -/
def nset {α : Type} (m : List (Nat × α)) (k : Nat) (v : α) : List (Nat × α) :=
  if (m.find? (fun p => p.1 = k)).isSome then
    m.map (fun p => if p.1 = k then (k, v) else p)
  else m ++ [(k, v)]

/-! ## Productions and items (lr/utils-obj.ts) -/

/-- Production: a head symbol and an ordered body. -/
structure Production where
  head : GSymbol
  body : List GSymbol
  deriving DecidableEq, Repr

/-- LR(0) item: a production with a dot position. -/
structure GItem where
  prod : Production
  dot : Nat
  deriving DecidableEq, Repr

/-- Mirrors GItem.isAtEnd: the dot has passed the whole body. -/
def GItem.isAtEnd (i : GItem) : Bool := i.prod.body.length ≤ i.dot

/-- Mirrors GItem.symbolAhead: body[dot], which is undefined past the end. -/
def GItem.symbolAhead (i : GItem) : Option GSymbol := i.prod.body.get? i.dot

/-- Mirrors GItem.tail: body.slice(dot+1). -/
def GItem.tail (i : GItem) : List GSymbol := i.prod.body.drop (i.dot + 1)

/-- Mirrors GItem.nextItem: advance the dot by one. -/
def GItem.nextItem (i : GItem) : GItem := ⟨i.prod, i.dot + 1⟩

/-- Mirrors production.getItems()[0]: the item with the dot at the start. -/
def Production.item0 (p : Production) : GItem := ⟨p, 0⟩

/-- LR(1) item: an LR(0) item plus a lookahead symbol. -/
structure LR1Item where
  item : GItem
  lookahead : GSymbol
  deriving DecidableEq, Repr

/-- Mirrors isNonTerminal applied to a possibly-undefined symbolAhead result. -/
def isNonTerminalO : Option GSymbol → Bool
  | some s => isNonTerminal s
  | none => false

/-! ## FIRST of a symbol sequence (lr/utils.ts, computeFirst) -/

/-- Loop body of computeFirst: scan the sequence, collecting non-epsilon
members of FIRST of each symbol, stopping after the first symbol whose
FIRST set does not contain epsilon. -/
def computeFirstGo (first : List (String × List GSymbol)) :
    List GSymbol → List GSymbol → List GSymbol
  | [], ret => ret
  | x :: rest, ret =>
    let f := (aget first x.toStr).getD []
    let epsFound := GSymbol.epsSym ∈ f
    let ret2 := f.foldl (fun r e => if e = GSymbol.epsSym then r else jsAdd r e) ret
    if epsFound then computeFirstGo first rest ret2 else ret2

/-- Mirrors computeFirst of lr/utils.ts: after the scan, epsilon is added
only when the sequence is non-empty and the collected set is empty. -/
def computeFirst (list : List GSymbol) (first : List (String × List GSymbol)) :
    List GSymbol :=
  let ret := computeFirstGo first list []
  if 0 < list.length && ret.length = 0 then [GSymbol.epsSym] else ret

/-! ## Operators and conflict resolution (lr/types.ts, lr/utils.ts) -/

/-- Operator associativity. -/
inductive Assoc where
  | nonassoc
  | left
  | right
  deriving DecidableEq, Repr

/-- Operator definition: name, associativity, precedence. -/
structure OperatorDefinition where
  name : String
  assoc : Assoc
  prior : Int
  deriving DecidableEq, Repr

/-- Mirrors defaultOperatorHandler: return the operator of the first symbol
in the production body whose name is a key of the operator table. -/
def defaultOperatorHandler (prod : Production)
    (oprMap : List (String × OperatorDefinition)) : Option OperatorDefinition :=
  go prod.body
where
  go : List GSymbol → Option OperatorDefinition
    | [] => none
    | s :: rest =>
      match aget oprMap s.name with
      | some v => some v
      | none => go rest

/-- Automaton action records [tag, payload]. -/
inductive AutomatonActionRecord where
  | shift (s : Nat)
  | reduce (head len : Nat) (pidx : Int)
  | accept
  | error (msg : String)
  deriving DecidableEq, Repr

/-- Value of the conflictPolicy.shiftReduce option when present. -/
inductive SRPolicyOpt where
  | shiftP
  | reduceP
  | errorP
  deriving DecidableEq, Repr

/-- Structured generator failures; the source throws ParserError with a
human-readable message built by getConflictText, whose diagnostic payload
(the recorded conflicting items) is abstracted away here. -/
inductive GenErr where
  | conflict (kind : String) (onSym : String)
  | invalidProdIndex (p : Int)
  | fault (msg : String)
  deriving DecidableEq, Repr

/-- Rendering used when auto mode combines the per-mode failures. -/
def GenErr.message : GenErr → String
  | .conflict kind onSym => kind ++ " conflict on " ++ onSym
  | .invalidProdIndex p => "Invalid production index " ++ toString p ++ " in reduce action"
  | .fault m => m

/-- Assoc rendering used by JSON.stringify of an operator. -/
def assocStr : Assoc → String
  | .nonassoc => "nonassoc"
  | .left => "left"
  | .right => "right"

/-- JSON.stringify of an OperatorDefinition object in property-creation
order (name, prior, assoc), as produced by the grammar builder. -/
def oprJson (op : OperatorDefinition) : String :=
  "\x7b\"name\":\"" ++ op.name ++ "\",\"prior\":" ++ toString op.prior ++
    ",\"assoc\":\"" ++ assocStr op.assoc ++ "\"\x7d"

/-- Error-entry message for a non-associative operator conflict. -/
def nonAssocMsg (op : OperatorDefinition) : String :=
  "Shift/Reduce conflict: Operator " ++ oprJson op ++ " is non-associative."

/-- Shift/reduce stage of resolveConflict, entered once the two actions are
classified into a shift action and a reduce action. -/
def resolveSR (productions : List Production)
    (operators : List (String × OperatorDefinition))
    (filterer : Production → List (String × OperatorDefinition) → Option OperatorDefinition)
    (shiftReduce : Option SRPolicyOpt)
    (shiftAction reduceAction : AutomatonActionRecord)
    (a : GSymbol) : Except GenErr AutomatonActionRecord :=
  match reduceAction with
  | .reduce _ _ p =>
    if p < 0 ∨ (productions.length : Int) ≤ p then
      .error (.invalidProdIndex p)
    else
      match productions.get? p.toNat with
      | none => .error (.invalidProdIndex p)
      | some prod =>
        match aget operators a.name with
        | some aOp =>
          match filterer prod operators with
          | some op =>
            if aOp.prior = op.prior then
              match op.assoc with
              | .left => .ok reduceAction
              | .right => .ok shiftAction
              | .nonassoc =>
                match shiftReduce with
                | some .reduceP => .ok reduceAction
                | some .shiftP => .ok shiftAction
                | _ => .ok (.error (nonAssocMsg op))
            else if op.prior < aOp.prior then .ok shiftAction
            else .ok reduceAction
          | none => .error (.conflict "Shift/Reduce" a.name)
        | none =>
          match shiftReduce with
          | some .reduceP => .ok reduceAction
          | some .shiftP => .ok shiftAction
          | _ => .error (.conflict "Shift/Reduce" a.name)
  | _ => .error (.fault "reduce action of unexpected shape")

/-- Mirrors LR0Generator.resolveConflict: classify the colliding pair
(reduce/reduce and shift/shift are fatal unless identical), then resolve
shift/reduce by operator precedence with policy fallback. -/
def resolveConflict (productions : List Production)
    (operators : List (String × OperatorDefinition))
    (filterer : Production → List (String × OperatorDefinition) → Option OperatorDefinition)
    (shiftReduce : Option SRPolicyOpt)
    (currentAction newAction : AutomatonActionRecord)
    (a : GSymbol) : Except GenErr AutomatonActionRecord :=
  match currentAction with
  | .reduce h1 l1 p1 =>
    match newAction with
    | .reduce h2 l2 p2 =>
      if h1 ≠ h2 ∨ l1 ≠ l2 ∨ p1 ≠ p2 then .error (.conflict "Reduce/Reduce" a.name)
      else .ok currentAction
    | _ => resolveSR productions operators filterer shiftReduce
        newAction currentAction a
  | _ =>
    match newAction with
    | .shift s2 =>
      match currentAction with
      | .shift s1 =>
        if s2 ≠ s1 then .error (.conflict "Shift/Shift" a.name)
        else .ok currentAction
      | _ => .error (.conflict "Shift/Shift" a.name)
    | _ => resolveSR productions operators filterer shiftReduce
        currentAction newAction a

/-! ## Closure and state search (lr/utils.ts)

The source worklist loops push new items onto a growing stack while an
index walks forward; the embedding makes the loop structural with a fuel
parameter (ample fuel is supplied at every concrete use).  Grammar symbols
occurring in production bodies are interned terminals and non-terminals,
for which the equals method of the source agrees with structural
equality. -/

/-- Mirrors closure: expand non-terminals after the dot, appending the
initial item of each of their productions when not already present. -/
def closure (getProds : GSymbol → List Production) :
    Nat → List GItem → Nat → List GItem
  | 0, stack, _ => stack
  | fuel + 1, stack, p =>
    if h : p < stack.length then
      let item := stack.get ⟨p, h⟩
      let stack2 :=
        match item.symbolAhead with
        | some b =>
          if isNonTerminal b then
            (getProds b).foldl (fun st prod => jsAdd st prod.item0) stack
          else stack
        | none => stack
      closure getProds fuel stack2 (p + 1)
    else stack

/-- Mirrors closureLR1: when closing an item with a lookahead, seed new
items with every terminal of FIRST(tail ++ lookahead). -/
def closureLR1 (getProds : GSymbol → List Production)
    (computeFirstFn : List GSymbol → List GSymbol) :
    Nat → List LR1Item → Nat → List LR1Item
  | 0, stack, _ => stack
  | fuel + 1, stack, p =>
    if h : p < stack.length then
      let top := stack.get ⟨p, h⟩
      let item := top.item
      let lookahead := top.lookahead
      let stack2 :=
        match item.symbolAhead with
        | some b =>
          if isNonTerminal b then
            (getProds b).foldl (fun st prod =>
              let suffix := item.tail ++ [lookahead]
              let first := computeFirstFn suffix
              first.foldl (fun st2 symbol =>
                if isTerminal symbol then
                  jsAdd st2 (LR1Item.mk prod.item0 symbol)
                else st2) st) stack
          else stack
        | none => stack
      closureLR1 getProds computeFirstFn fuel stack2 (p + 1)
    else stack

/-- Mirrors findState for LR(0) states: the first state of equal size all
of whose items occur in the candidate.  The source returns -1 when absent;
the embedding returns none. -/
def findStateLR0 (list : List (List GItem)) (state : List GItem) : Option Nat :=
  list.findIdx? (fun s => s.length = state.length &&
    s.all (fun i1 => state.any (fun i2 => i2 = i1)))

/-- Mirrors findState for LR(1) states; with the similarity flag set
(LALR), items are compared on their LR(0) part only. -/
def findStateLR1 (similar : Bool) (list : List (List LR1Item))
    (state : List LR1Item) : Option Nat :=
  list.findIdx? (fun s => s.length = state.length &&
    s.all (fun i1 => state.any (fun i2 =>
      if similar then i2.item = i1.item else i2 = i1)))

/-! ## Fresh-name generation (lexer/utils.ts) -/

/-- Digit-list to number, most significant first. -/
def digitsToNat (ds : List Char) : Nat :=
  ds.foldl (fun acc c => acc * 10 + (c.toNat - 48)) 0

/-- Mirrors getIncrementName: a trailing underscore-digits suffix is
incremented; otherwise the suffix _0 is appended. -/
def getIncrementName (s : String) : String :=
  let rev := s.data.reverse
  let digits := rev.takeWhile (fun c => c.isDigit)
  if digits.isEmpty then s ++ "_0"
  else
    match rev.drop digits.length with
    | '_' :: pre =>
      String.mk pre.reverse ++ "_" ++ toString (digitsToNat digits.reverse + 1)
    | _ => s ++ "_0"

/-! ## Dynamic values and production handlers

Handler functions receive the reduced body values left-to-right and return
one value; JavaScript dynamic values are modelled by a small value
universe with an explicit undefined. -/

/-- Dynamic JS value universe used by handlers and tokens. -/
inductive JVal where
  | undefV
  | num (n : Int)
  | str (s : String)
  | boolV (b : Bool)
  | arr (xs : List JVal)

/-- Production handler: reduced values in, one value out. -/
def PHandler : Type := List JVal → JVal

/-- Mirrors identityFunc: return the argument list as an array. -/
def identityFunc : PHandler := fun args => JVal.arr args

/-- Index into a JS array value; anything else yields undefined. -/
def jIdx : JVal → Nat → JVal
  | .arr xs, i => (xs.get? i).getD .undefV
  | _, _ => .undefV

/-- View a JS value as an array, the only shape reaching these adapters. -/
def jList : JVal → List JVal
  | .arr xs => xs
  | _ => []

/-! ## Handler modifiers (bnf/types.ts, lr/utils.ts) -/

/-- ProductionHandlerModifier tuple [op, next, params]: next is absent, a
handler index, or a nested modifier. -/
inductive HandlerModifier where
  | mk (op : String) (next : Option (Nat ⊕ HandlerModifier)) (params : List Int)

/-- Mirrors compileActionRecord: compile a modifier tree into a handler by
reshaping the argument vector before calling the next function. -/
def compileActionRecord (f : Nat → Option PHandler) :
    HandlerModifier → Option PHandler
  | .mk op next params =>
    let nextFunc : Option PHandler :=
      match next with
      | some (.inl n) => f n
      | some (.inr m) => compileActionRecord f m
      | none => some identityFunc
    let nextFunc2 := nextFunc.getD identityFunc
    if op = "epsilon" then
      let i := (((params.get? 0).getD 0).toNat)
      some (fun args => nextFunc2 (args.take i ++ [JVal.undefV] ++ args.drop i))
    else if op = "merge" then
      let i := (((params.get? 0).getD 0).toNat)
      let t := (((params.get? 1).getD 0).toNat)
      some (fun args =>
        nextFunc2 (args.take i ++ [JVal.arr ((args.drop i).take t)] ++ args.drop (i + t)))
    else if op = "collect" then
      match nextFunc with
      | none => some (fun args => JVal.arr [JVal.arr args, JVal.arr []])
      | some nf => some (fun args => nf [JVal.arr args, JVal.arr []])
    else if op = "append" then
      match nextFunc with
      | none => some (fun args =>
          JVal.arr [jIdx ((args.get? 0).getD .undefV) 0,
            JVal.arr (jList (jIdx ((args.get? 0).getD .undefV) 1) ++ [JVal.arr (args.drop 1)])])
      | some nf => some (fun args =>
          nf [jIdx ((args.get? 0).getD .undefV) 0,
            JVal.arr (jList (jIdx ((args.get? 0).getD .undefV) 1) ++ [JVal.arr (args.drop 1)])])
    else if op = "apply" then
      some (fun args =>
        let pre := (args.get? 0).getD .undefV
        let post := (args.get? 1).getD .undefV
        nextFunc2 (jList (jIdx pre 0) ++ [jIdx pre 1] ++ jList post))
    else nextFunc

/-! ## Grammar definitions entering the generator (bnf/types.ts, lr/types.ts) -/

/-- BnfElement: literal, identifier, or number. -/
inductive BnfE where
  | literal (v : String)
  | identifier (v : String)
  | number (n : Int)
  deriving DecidableEq, Repr

/-- Name extraction used by processProductions: the value, with numbers
rendered as their decimal string. -/
def BnfE.elementName : BnfE → String
  | .literal v => v
  | .identifier v => v
  | .number n => toString n

/-- Action attached to a simple production: a handler index or a modifier. -/
inductive PAction where
  | num (n : Nat)
  | mod (m : HandlerModifier)

/-- SimpleProduction: head name, body elements, optional action. -/
structure SimpleProduction where
  name : String
  expr : List BnfE
  action : Option PAction := none

/-- Requested generator mode. -/
inductive GenMode where
  | slr
  | lalr
  | lr1
  deriving DecidableEq, Repr

/-- Mode literal as written in the grammar definition. -/
def GenMode.str : GenMode → String
  | .slr => "slr"
  | .lalr => "lalr"
  | .lr1 => "lr1"

/-- Conflict policy carried by the grammar definition. -/
structure ConflictPolicyDef where
  shiftReduce : Option SRPolicyOpt := none
  filterer : Option (Production → List (String × OperatorDefinition) →
    Option OperatorDefinition) := none

/-- GrammarDefinition consumed by the LR generator. -/
structure GrammarDefinition where
  tokens : List String
  productions : List SimpleProduction
  actions : List (Option PHandler)
  operators : List OperatorDefinition
  startSymbol : Option String := none
  eofToken : Option String := none
  mode : Option GenMode := none
  conflictPolicy : Option ConflictPolicyDef := none

/-- Default EOF token name (lexer/lexer.ts). -/
def DEFAULT_EOF_TOKEN : String := "<<EOF>>"

/-- EOF index reserved in the symbol table (lr/utils.ts). -/
def EOF_INDEX : Nat := 0

/-! ## Symbol interning (LR0Generator constructor, lr/types.ts) -/

/-- Mutable symbol-interning state of the generator constructor. -/
structure SymState where
  symbols : List GSymbol
  symbolsTable : List (String × Nat)
  terminals : List GSymbol
  nonTerminals : List GSymbol

/-- Mirrors addGrammarElement: intern a name, classifying it as terminal
when it is a declared token, non-terminal otherwise. -/
def addGrammarElement (tokens : List String) (st : SymState) (element : String) :
    SymState × GSymbol :=
  match aget st.symbolsTable element with
  | some idx => (st, (st.symbols.get? idx).getD (.t element))
  | none =>
    let el : GSymbol := if tokens.contains element then .t element else .nt element
    let st2 : SymState :=
      { symbols := st.symbols ++ [el]
        symbolsTable := aset st.symbolsTable element st.symbols.length
        terminals := if tokens.contains element then st.terminals ++ [el] else st.terminals
        nonTerminals := if tokens.contains element then st.nonTerminals else st.nonTerminals ++ [el] }
    (st2, el)

/-- Mirrors processProductions for one production: intern head and body
elements and resolve the action (a handler index or a compiled modifier). -/
def processOneProduction (tokens : List String) (actionTable : Nat → Option PHandler)
    (st : SymState) (p : SimpleProduction) : SymState × Production × Option PHandler :=
  let action : Option PHandler :=
    match p.action with
    | some (.num n) => actionTable n
    | some (.mod m) => compileActionRecord actionTable m
    | none => none
  let (st1, head) := addGrammarElement tokens st p.name
  let (st2, body) := p.expr.foldl
    (fun (acc : SymState × List GSymbol) e =>
      let (s, g) := addGrammarElement tokens acc.1 e.elementName
      (s, acc.2 ++ [g]))
    (st1, [])
  (st2, ⟨head, body⟩, action)

/-- Generator context after the LR0Generator constructor has run. -/
structure GenCtx where
  tokens : List String
  eofSym : GSymbol
  symbols : List GSymbol
  symbolsTable : List (String × Nat)
  terminals : List GSymbol
  nonTerminals : List GSymbol
  productions : List Production
  pactions : List (Option PHandler)
  operators : List (String × OperatorDefinition)
  start : GSymbol
  actionMode : String
  shiftReduce : Option SRPolicyOpt
  filterer : Production → List (String × OperatorDefinition) → Option OperatorDefinition
  first : List (String × List GSymbol)
  follow : List (String × List GSymbol)

/-! ## FIRST and FOLLOW fixpoints (computeFirstAndFollow, lr/types.ts) -/

/-- Inner body scan of the FIRST pass for one production with a non-empty
body; returns the updated map, the change flag, and whether the scan
stopped early at a non-nullable symbol. -/
def firstScanBody (lhss : String) :
    List GSymbol → List (String × List GSymbol) → Bool →
    List (String × List GSymbol) × Bool × Bool
  | [], first, done => (first, done, false)
  | e :: rest, first, done =>
    let es := e.toStr
    let first := if (aget first es).isSome then first else aset first es []
    let fwe := ((aget first es).getD []).filter (fun s => s ≠ GSymbol.epsSym)
    let cur := (aget first lhss).getD []
    let (cur2, ch) := jsAddSet2 cur fwe
    let first := aset first lhss cur2
    let done := ch || done
    if GSymbol.epsSym ∈ (aget first es).getD [] then
      firstScanBody lhss rest first done
    else (first, done, true)

/-- FIRST pass over one production. -/
def firstPassProd (acc : List (String × List GSymbol) × Bool) (p : Production) :
    List (String × List GSymbol) × Bool :=
  let (first, done) := acc
  let lhss := p.head.toStr
  let first := if (aget first lhss).isSome then first else aset first lhss []
  if p.body.isEmpty then
    let cur := (aget first lhss).getD []
    let (cur2, ch) := jsAdd2 cur GSymbol.epsSym
    (aset first lhss cur2, ch || done)
  else
    match firstScanBody lhss p.body first done with
    | (first, done, true) => (first, done)
    | (first, done, false) =>
      let lastStr := ((p.body.getLast?).map GSymbol.toStr).getD ""
      if GSymbol.epsSym ∈ (aget first lastStr).getD [] then
        let cur := (aget first lhss).getD []
        let (cur2, ch) := jsAdd2 cur GSymbol.epsSym
        (aset first lhss cur2, ch || done)
      else (first, done)

/-- FIRST fixpoint: repeat passes until no set grows. -/
def firstFix (productions : List Production) :
    Nat → List (String × List GSymbol) → List (String × List GSymbol)
  | 0, first => first
  | fuel + 1, first =>
    let (first2, done) := productions.foldl firstPassProd (first, false)
    if done then firstFix productions fuel first2 else first2

/-- Body scan of the FOLLOW pass for one production: for each non-terminal
B at position i, FOLLOW(B) grows by FIRST(tail) minus epsilon, and by
FOLLOW(head) when the tail is empty or derives epsilon. -/
def followScanBody (first : List (String × List GSymbol)) (lhss : String) :
    List GSymbol → List (String × List GSymbol) → Bool →
    List (String × List GSymbol) × Bool
  | [], follow, done => (follow, done)
  | e :: rest, follow, done =>
    let rhsis := e.toStr
    let (follow, done) :=
      if isNonTerminal e then
        let follow := if (aget follow rhsis).isSome then follow else aset follow rhsis []
        if rest.length > 0 then
          let f := computeFirst rest first
          let epsfound := GSymbol.epsSym ∈ f
          let f := f.erase GSymbol.epsSym
          let cur := (aget follow rhsis).getD []
          let (cur2, ch) := jsAddSet2 cur f
          let follow := aset follow rhsis cur2
          let done := ch || done
          if epsfound then
            let follow := if (aget follow lhss).isSome then follow else aset follow lhss []
            let flhs := (aget follow lhss).getD []
            let cur := (aget follow rhsis).getD []
            let (cur2, ch) := jsAddSet2 cur flhs
            (aset follow rhsis cur2, ch || done)
          else (follow, done)
        else
          let follow := if (aget follow lhss).isSome then follow else aset follow lhss []
          let flhs := (aget follow lhss).getD []
          let cur := (aget follow rhsis).getD []
          let (cur2, ch) := jsAddSet2 cur flhs
          (aset follow rhsis cur2, ch || done)
      else (follow, done)
    followScanBody first lhss rest follow done

/-- FOLLOW pass over one production. -/
def followPassProd (first : List (String × List GSymbol))
    (acc : List (String × List GSymbol) × Bool) (p : Production) :
    List (String × List GSymbol) × Bool :=
  followScanBody first p.head.toStr p.body acc.1 acc.2

/-- FOLLOW fixpoint. -/
def followFix (first : List (String × List GSymbol)) (productions : List Production) :
    Nat → List (String × List GSymbol) → List (String × List GSymbol)
  | 0, follow => follow
  | fuel + 1, follow =>
    let (follow2, done) := productions.foldl (followPassProd first) (follow, false)
    if done then followFix first productions fuel follow2 else follow2

/-- Mirrors the LR0Generator constructor: intern the EOF terminal at index
0, process productions and operators, resolve the start symbol, and run
the FIRST/FOLLOW fixpoints. -/
def mkGenCtx (g : GrammarDefinition) (fuel : Nat) : GenCtx :=
  let eofSym : GSymbol := .t (g.eofToken.getD DEFAULT_EOF_TOKEN)
  let tokens0 := g.tokens.foldl jsAdd []
  let st0 : SymState :=
    { symbols := [eofSym]
      symbolsTable := [(eofSym.toStr, EOF_INDEX)]
      terminals := [eofSym]
      nonTerminals := [] }
  let tokens := jsAdd tokens0 eofSym.name
  let (stF, prods, acts) := g.productions.foldl
    (fun (acc : SymState × List Production × List (Option PHandler)) sp =>
      let (st2, p, a) := processOneProduction tokens (fun i => (g.actions.get? i).getD none) acc.1 sp
      (st2, acc.2.1 ++ [p], acc.2.2 ++ [a]))
    (st0, [], [])
  let operators := g.operators.foldl (fun m op => aset m op.name op) []
  let start : GSymbol :=
    match g.startSymbol with
    | some s => (stF.symbols.get? ((aget stF.symbolsTable s).getD 0)).getD eofSym
    | none => ((prods.get? 0).map Production.head).getD eofSym
  let firstInit := stF.terminals.foldl (fun m t => aset m t.toStr [t]) []
  let first := firstFix prods fuel firstInit
  let followInit := aset [] start.toStr [eofSym]
  let follow := followFix first prods fuel followInit
  let policy := g.conflictPolicy.getD {}
  { tokens := tokens
    eofSym := eofSym
    symbols := stF.symbols
    symbolsTable := stF.symbolsTable
    terminals := stF.terminals
    nonTerminals := stF.nonTerminals
    productions := prods
    pactions := acts
    operators := operators
    start := start
    actionMode := "function"
    shiftReduce := policy.shiftReduce
    filterer := policy.filterer.getD defaultOperatorHandler
    first := first
    follow := follow }

/-! ## Shared generator pieces (lr/types.ts) -/

/-- Mirrors getProductionsByHead: filter by head equality. -/
def getProductionsByHead (productions : List Production) (head : GSymbol) :
    List Production :=
  productions.filter (fun p => gsymEquals p.head head)

/-- Mirrors gotoLR0: advance the dot past x and close. -/
def gotoLR0 (fuel : Nat) (getProds : GSymbol → List Production)
    (i : List GItem) (x : GSymbol) : List GItem :=
  let j := i.foldl (fun acc item =>
    if !item.isAtEnd &&
        (match item.symbolAhead with
         | some s => gsymEquals s x
         | none => false) then
      acc ++ [item.nextItem]
    else acc) []
  closure getProds fuel j 0

/-- Mirrors gotoLR1 of the LALR generator. -/
def gotoLR1 (fuel : Nat) (getProds : GSymbol → List Production)
    (computeFirstFn : List GSymbol → List GSymbol)
    (i : List LR1Item) (x : GSymbol) : List LR1Item :=
  let j := i.foldl (fun acc top =>
    if !top.item.isAtEnd &&
        (match top.item.symbolAhead with
         | some s => gsymEquals s x
         | none => false) then
      acc ++ [LR1Item.mk top.item.nextItem top.lookahead]
    else acc) []
  closureLR1 getProds computeFirstFn fuel j 0

/-- Mirrors determineS1: start from __GLOBAL and increment the name until
it clashes with no non-terminal or token. -/
def determineS1 (nonTerminals : List GSymbol) (tokens : List String) : GSymbol :=
  .nt (go (nonTerminals.length + tokens.length + 1) "__GLOBAL")
where
  go : Nat → String → String
    | 0, s => s
    | fuel + 1, s =>
      if nonTerminals.any (fun x => x.name = s) || tokens.contains s then
        go fuel (getIncrementName s)
      else s

/-- Action and goto tables under construction, together with the list of
states.  Rows are sparse maps from symbol index to entry. -/
structure TablesState (σ : Type) where
  states : List σ
  action : List (Nat × List (Nat × AutomatonActionRecord))
  goto : List (Nat × List (Nat × Nat))

/-- Mirrors tryAddAction on the action row of state i: a fresh cell takes
the new action, an occupied cell goes through resolveConflict. -/
def tryAddAction (ctx : GenCtx) {σ : Type} (st : TablesState σ) (i : Nat)
    (lookahead : GSymbol) (newAction : AutomatonActionRecord) :
    Except GenErr (TablesState σ) :=
  let an := (aget ctx.symbolsTable lookahead.toStr).getD 0
  let row := (nget st.action i).getD []
  match nget row an with
  | none => .ok { st with action := nset st.action i (nset row an newAction) }
  | some cur => do
    let r ← resolveConflict ctx.productions ctx.operators ctx.filterer ctx.shiftReduce
      cur newAction lookahead
    .ok { st with action := nset st.action i (nset row an r) }

/-- Production index as computed by indexOf (structural equality; -1 when
absent). -/
def prodIndexOf (productions : List Production) (p : Production) : Int :=
  match productions.findIdx? (fun q => q = p) with
  | some n => (n : Int)
  | none => -1

/-- Write an action cell directly, bypassing conflict resolution (used for
the accept cell, exactly as the source assigns act[EOF_INDEX]). -/
def setActionDirect {σ : Type} (st : TablesState σ) (i an : Nat)
    (a : AutomatonActionRecord) : TablesState σ :=
  let row := (nget st.action i).getD []
  { st with action := nset st.action i (nset row an a) }

/-- Ensure an action row exists for state i (action[i] = action[i] ?? {}). -/
def ensureActionRow {σ : Type} (st : TablesState σ) (i : Nat) : TablesState σ :=
  if (nget st.action i).isSome then st
  else { st with action := nset st.action i [] }

/-! ## SLR table construction (gen-slr.ts) -/

/-- One item of one SLR state: a reducible item emits a reduce action for
every FOLLOW member (or the accept cell for the augmented head); an item
with a symbol ahead computes the goto state and emits shift or goto. -/
def slrItemOne (ctx : GenCtx) (s1 : GSymbol) (getProds : GSymbol → List Production)
    (fuel : Nat) (ii : List GItem) (i : Nat)
    (st : TablesState (List GItem)) (gItem : GItem) :
    Except GenErr (TablesState (List GItem)) :=
  if gItem.isAtEnd then
    let p := gItem.prod
    let pIndex := prodIndexOf ctx.productions p
    if !gsymEquals p.head s1 then
      let followSet := (aget ctx.follow p.head.toStr).getD []
      followSet.foldlM (fun st a =>
        let newAction : AutomatonActionRecord :=
          .reduce ((aget ctx.symbolsTable p.head.name).getD 0) p.body.length pIndex
        tryAddAction ctx st i a newAction) st
    else
      .ok (setActionDirect st i EOF_INDEX .accept)
  else
    match gItem.symbolAhead with
    | none => .ok st
    | some a =>
      let ij := gotoLR0 fuel getProds ii a
      let (st, j) :=
        match findStateLR0 st.states ij with
        | some j => (st, j)
        | none => ({ st with states := st.states ++ [ij] }, st.states.length)
      let an := (aget ctx.symbolsTable a.name).getD 0
      if isNonTerminal a then
        let grow := (nget st.goto i).getD []
        .ok { st with goto := nset st.goto i (nset grow an j) }
      else
        tryAddAction ctx st i a (.shift j)

/-- Worklist over SLR states. -/
def slrLoop (ctx : GenCtx) (s1 : GSymbol) (getProds : GSymbol → List Production) :
    Nat → TablesState (List GItem) → Nat → Except GenErr (TablesState (List GItem))
  | 0, st, _ => .ok st
  | fuel + 1, st, i =>
    if h : i < st.states.length then
      let ii := st.states.get ⟨i, h⟩
      let st := ensureActionRow st i
      match ii.foldlM (slrItemOne ctx s1 getProds (fuel + 1) ii i) st with
      | .error e => .error e
      | .ok st2 => slrLoop ctx s1 getProds fuel st2 (i + 1)
    else .ok st

/-- Mirrors SLRGenerator.computeSLR. -/
def computeSLR (ctx : GenCtx) (fuel : Nat) :
    Except GenErr (TablesState (List GItem)) :=
  let s1 := determineS1 ctx.nonTerminals ctx.tokens
  let getProds := getProductionsByHead ctx.productions
  let startProduction : Production := ⟨s1, [ctx.start]⟩
  let startItem := closure getProds fuel [startProduction.item0] 0
  slrLoop ctx s1 getProds fuel ⟨[startItem], [], []⟩ 0

/-! ## LALR(1) and canonical LR(1) table construction (gen-lalr.ts) -/

/-- Mirrors mergeStates: for each reducible item of the existing state j,
adopt the lookahead contributed by the matching item of the incoming
state, re-adding the corresponding reduce (or accept) action. -/
def mergeStates (ctx : GenCtx) (s1 : GSymbol)
    (st : TablesState (List LR1Item)) (j : Nat) (other : List LR1Item) :
    Except GenErr (TablesState (List LR1Item)) :=
  let stateJ := (st.states.get? j).getD []
  stateJ.foldlM (fun st lr1Item =>
    if !lr1Item.item.isAtEnd then .ok st
    else
      match other.find? (fun o => o.item = lr1Item.item) with
      | none => .ok st
      | some otherLR1 =>
        let gItem := otherLR1.item
        let p := gItem.prod
        let lookahead := otherLR1.lookahead
        match ctx.productions.findIdx? (fun x => x = p) with
        | none => .ok st
        | some pi =>
          let st := ensureActionRow st j
          if gsymEquals p.head s1 then
            .ok (setActionDirect st j EOF_INDEX .accept)
          else
            tryAddAction ctx st j lookahead
              (.reduce ((aget ctx.symbolsTable p.head.name).getD 0) p.body.length (pi : Int)))
    st

/-- One item of one LR(1)/LALR state. -/
def lr1ItemOne (ctx : GenCtx) (s1 : GSymbol) (lalr1 : Bool)
    (getProds : GSymbol → List Production)
    (computeFirstFn : List GSymbol → List GSymbol)
    (fuel : Nat) (ii : List LR1Item) (i : Nat)
    (st : TablesState (List LR1Item)) (top : LR1Item) :
    Except GenErr (TablesState (List LR1Item)) :=
  let gItem := top.item
  let lookahead := top.lookahead
  if gItem.isAtEnd then
    let p := gItem.prod
    let pIndex := prodIndexOf ctx.productions p
    if !gsymEquals p.head s1 then
      tryAddAction ctx st i lookahead
        (.reduce ((aget ctx.symbolsTable p.head.name).getD 0) p.body.length pIndex)
    else
      .ok (setActionDirect st i EOF_INDEX .accept)
  else
    match gItem.symbolAhead with
    | none => .ok st
    | some a => do
      let ij := gotoLR1 fuel getProds computeFirstFn ii a
      let (st, j) ←
        match findStateLR1 lalr1 st.states ij with
        | some j =>
          if lalr1 then
            (mergeStates ctx s1 st j ij).map (fun st2 => (st2, j))
          else .ok (st, j)
        | none => .ok ({ st with states := st.states ++ [ij] }, st.states.length)
      let an := (aget ctx.symbolsTable a.name).getD 0
      if isNonTerminal a then
        let grow := (nget st.goto i).getD []
        .ok { st with goto := nset st.goto i (nset grow an j) }
      else
        tryAddAction ctx st i a (.shift j)

/-- Worklist over LR(1)/LALR states. -/
def lr1Loop (ctx : GenCtx) (s1 : GSymbol) (lalr1 : Bool)
    (getProds : GSymbol → List Production)
    (computeFirstFn : List GSymbol → List GSymbol) :
    Nat → TablesState (List LR1Item) → Nat →
    Except GenErr (TablesState (List LR1Item))
  | 0, st, _ => .ok st
  | fuel + 1, st, i =>
    if h : i < st.states.length then
      let ii := st.states.get ⟨i, h⟩
      let st := ensureActionRow st i
      match ii.foldlM (lr1ItemOne ctx s1 lalr1 getProds computeFirstFn (fuel + 1) ii i) st with
      | .error e => .error e
      | .ok st2 => lr1Loop ctx s1 lalr1 getProds computeFirstFn fuel st2 (i + 1)
    else .ok st

/-- Mirrors LALRGenerator.computeLR1 (canonical LR(1) when lalr1 is false). -/
def computeLR1 (ctx : GenCtx) (lalr1 : Bool) (fuel : Nat) :
    Except GenErr (TablesState (List LR1Item)) :=
  let s1 := determineS1 ctx.nonTerminals ctx.tokens
  let getProds := getProductionsByHead ctx.productions
  let computeFirstFn := fun list => computeFirst list ctx.first
  let startProduction : Production := ⟨s1, [ctx.start]⟩
  let startItem := closureLR1 getProds computeFirstFn fuel
    [LR1Item.mk startProduction.item0 ctx.eofSym] 0
  lr1Loop ctx s1 lalr1 getProds computeFirstFn fuel ⟨[startItem], [], []⟩ 0

/-! ## Assembled grammar tables and mode dispatch (lr/generator.ts) -/

/-- ParsedGrammar: the frozen tabular output of the generator. -/
structure ParsedGrammar where
  action : List (Nat × List (Nat × AutomatonActionRecord))
  goto : List (Nat × List (Nat × Nat))
  actionMode : String
  actions : List (Option PHandler)
  startState : Nat
  symbols : List GSymbol
  symbolsTable : List (String × Nat)

/-- Mirrors generateParsedGrammar. -/
def generateParsedGrammar {σ : Type} (ctx : GenCtx) (tbl : TablesState σ) :
    ParsedGrammar :=
  { action := tbl.action
    goto := tbl.goto
    actionMode := ctx.actionMode
    actions := ctx.pactions
    startState := 0
    symbols := ctx.symbols
    symbolsTable := ctx.symbolsTable }

/-- Run the SLR generator on a grammar definition. -/
def runSLR (g : GrammarDefinition) (fuel : Nat) : Except GenErr ParsedGrammar :=
  let ctx := mkGenCtx g fuel
  (computeSLR ctx fuel).map (generateParsedGrammar ctx)

/-- Run the LALR(1) (lalr1 true) or canonical LR(1) generator. -/
def runLALR (g : GrammarDefinition) (lalr1 : Bool) (fuel : Nat) :
    Except GenErr ParsedGrammar :=
  let ctx := mkGenCtx g fuel
  (computeLR1 ctx lalr1 fuel).map (generateParsedGrammar ctx)

/-- Mirrors LRGenerator.computeMode: slr uses the SLR generator, the other
two the LR(1) generator with the lalr1 flag set for lalr. -/
def computeModeRun (mode : GenMode) (g : GrammarDefinition) (fuel : Nat) :
    Except GenErr ParsedGrammar :=
  match mode with
  | .slr => runSLR g fuel
  | .lalr => runLALR g true fuel
  | .lr1 => runLALR g false fuel

/-- Combined failure text of computeAuto; the separator in the source is
the two-character sequence backslash-n (an escaped backslash in the
template literal). -/
def autoFailMsg (e1 e2 e3 : GenErr) : String :=
  "Failed to generate parser with any mode:\\n" ++
    "SLR: " ++ e1.message ++ "\\n" ++
    "LALR(1): " ++ e2.message ++ "\\n" ++
    "LR(1): " ++ e3.message

/-- Mirrors LRGenerator.computeAuto: try SLR, then LALR(1), then LR(1),
returning the first success, else the combined failure. -/
def computeAutoRun (g : GrammarDefinition) (fuel : Nat) :
    Except GenErr ParsedGrammar :=
  match computeModeRun .slr g fuel with
  | .ok t => .ok t
  | .error e1 =>
    match computeModeRun .lalr g fuel with
    | .ok t => .ok t
    | .error e2 =>
      match computeModeRun .lr1 g fuel with
      | .ok t => .ok t
      | .error e3 => .error (.fault (autoFailMsg e1 e2 e3))

/-- ASCII toUpperCase as applied by the constructor to the mode string. -/
def jsToUpperCase (s : String) : String :=
  String.mk (s.data.map (fun c =>
    if 'a' ≤ c && c ≤ 'z' then Char.ofNat (c.toNat - 32) else c))

/-- Mirrors the LRGenerator constructor dispatch: the upper-cased mode
string is compared against lowercase literals. -/
def LRGeneratorRun (g : GrammarDefinition) (fuel : Nat) :
    Except GenErr ParsedGrammar :=
  let mode := g.mode.map (fun m => jsToUpperCase m.str)
  if mode = some "lalr" then computeModeRun .lalr g fuel
  else if mode = some "slr" then computeModeRun .slr g fuel
  else if mode = some "lr1" then computeModeRun .lr1 g fuel
  else computeAutoRun g fuel

/-! ## Tokens and token streams (lexer/types.ts, models/grammar.ts) -/

/-- Line/column position. -/
structure Position where
  line : Int
  col : Int
  deriving DecidableEq, Repr

/-- Token: name, lexeme, dynamic value, optional byte and line/col
positions.  Synthetic tokens built on reduce carry no positions. -/
structure PToken where
  name : String
  lexeme : String
  value : JVal
  position : Option Int := none
  pos : Option Position := none

/-- Token-array stream used to drive the parser (WrappedTokenArray). -/
structure WrappedTokenArray where
  tokens : List PToken
  eofName : String

/-- EOF token minted by WrappedTokenArray. -/
def wtaEOF (eofName : String) : PToken :=
  { name := eofName, lexeme := eofName, value := .str eofName,
    position := some (-1), pos := some ⟨-1, -1⟩ }

/-- Mirrors WrappedTokenArray.nextToken: pop the next token, or the EOF
token once exhausted (the cursor is not advanced at EOF). -/
def wtaNext (wta : WrappedTokenArray) (pos : Nat) : PToken × Nat :=
  match wta.tokens.get? pos with
  | some t => (t, pos + 1)
  | none => (wtaEOF wta.eofName, pos)

/-! ## Shift-reduce parse driver (lr/parser.ts) -/

/-- Parser stack frame: a state and the token (or synthetic token) shifted
into it. -/
structure PFrame where
  s : Nat
  i : PToken

/-- Structured parse failures (ParserError in the source). -/
inductive ParseErr where
  | unexpectedEOF
  | unexpectedToken (name : String) (state : Option Nat)
  | parserMsg (msg : String)

/-- Mirrors Parser.reduce: pop the reduced frames, invoke the handler (or
identity), consult GOTO, and push the synthetic frame.  The undefined
accesses the source would crash on (empty remaining stack, missing goto
cell) surface as parserMsg errors; they are unreachable on
generator-produced tables. -/
def reduceStep (p : ParsedGrammar) (stack : List PFrame)
    (head len : Nat) (pidx : Int) : Except ParseErr (List PFrame) :=
  let k := min len stack.length
  let rhs := stack.drop (stack.length - k)
  let stack2 := stack.take (stack.length - k)
  match stack2.getLast? with
  | none => .error (.parserMsg "stack underflow in reduce")
  | some t =>
    match (nget p.goto t.s).bind (fun row => nget row head) with
    | none => .error (.parserMsg "missing goto entry")
    | some ns =>
      let actionF : PHandler :=
        if pidx < 0 then identityFunc
        else ((p.actions.get? pidx.toNat).getD none).getD identityFunc
      let values := rhs.map (fun si => si.i.value)
      let value := actionF values
      let ntName := ((p.symbols.get? head).map GSymbol.name).getD ""
      .ok (stack2 ++ [⟨ns, { name := ntName, lexeme := "", value := value }⟩])

/-- Symbol index of the lookahead (0 at EOF, else the symbolsTable entry)
followed by the ACTION cell lookup of the main loop. -/
def actionCell (p : ParsedGrammar) (wta : WrappedTokenArray) (s : Nat)
    (a : PToken) : Option AutomatonActionRecord :=
  (if a.name = wta.eofName then some 0 else aget p.symbolsTable a.name).bind
    (fun an => nget ((nget p.action s).getD []) an)

/-- Mirrors the Parser.parse main loop.  On Accept the returned value is
the value of the frame read at the top of the stack in that iteration;
the final stack is also returned so stack-shape properties can be
stated. -/
def parseLoop (p : ParsedGrammar) (wta : WrappedTokenArray) :
    Nat → List PFrame → PToken → Nat → Except ParseErr (JVal × List PFrame)
  | 0, _, _, _ => .error (.parserMsg "fuel exhausted")
  | fuel + 1, stack, a, sidx =>
    match stack.getLast? with
    | none => .error (.parserMsg "empty stack")
    | some top =>
      let s := top.s
      match actionCell p wta s a with
      | some (.error msg) => .error (.parserMsg msg)
      | some (.shift s2) =>
        let next := wtaNext wta sidx
        parseLoop p wta fuel (stack ++ [⟨s2, a⟩]) next.1 next.2
      | some .accept => .ok (top.i.value, stack)
      | some (.reduce h l pi) =>
        match reduceStep p stack h l pi with
        | .error e => .error e
        | .ok stack2 => parseLoop p wta fuel stack2 a sidx
      | none =>
        if a.name = wta.eofName then .error .unexpectedEOF
        else .error (.unexpectedToken a.name (some s))

/-- Mirrors Parser.parse: read the first token, seed the stack with the
start state holding it, and loop. -/
def parseRun (p : ParsedGrammar) (wta : WrappedTokenArray) (fuel : Nat) :
    Except ParseErr (JVal × List PFrame) :=
  let first := wtaNext wta 0
  parseLoop p wta fuel [⟨p.startState, first.1⟩] first.1 first.2

/-! ## Parser serialization (lr/parser.ts, serialize / deserialize)

Handler functions are serialized by the function serializer of
utils/serializer.ts, modelled here by an abstract encode/decode pair; the
claims hypothesize the round-trip property that holds for handlers
without impurity violations. -/

/-- Serialized symbol record: name plus the instanceof-NT tag. -/
structure SymbolRec where
  name : String
  isNT : Bool
  deriving DecidableEq, Repr

/-- SerializedParser shape, parametric in the serialized-function type. -/
structure SerializedParser (F : Type) where
  action : List (Nat × List (Nat × AutomatonActionRecord))
  goto : List (Nat × List (Nat × Nat))
  actionMode : String
  actions : List (Option F)
  startState : Nat
  symbols : List SymbolRec
  symbolsTable : List (String × Nat)

/-- Mirrors Parser.serialize. -/
def serializeParser {F : Type} (sf : PHandler → F) (p : ParsedGrammar) :
    SerializedParser F :=
  { action := p.action
    goto := p.goto
    actionMode := p.actionMode
    actions := p.actions.map (fun a => a.map sf)
    startState := p.startState
    symbols := p.symbols.map (fun s => ⟨s.name, isNonTerminal s⟩)
    symbolsTable := p.symbolsTable }

/-- Mirrors Parser.deserialize. -/
def deserializeParser {F : Type} (df : F → PHandler) (sp : SerializedParser F) :
    ParsedGrammar :=
  { action := sp.action
    goto := sp.goto
    actionMode := sp.actionMode
    actions := sp.actions.map (fun a => a.map df)
    startState := sp.startState
    symbols := sp.symbols.map (fun s => if s.isNT then .nt s.name else .t s.name)
    symbolsTable := sp.symbolsTable }

/-! ## Line positions (lexer/utils.ts) -/

/-- Offsets following each line break (the global regex matches CRLF or
bare LF). -/
def getLinePositionsGo : List Char → Nat → List Nat
  | [], _ => []
  | '\r' :: '\n' :: rest, i => (i + 2) :: getLinePositionsGo rest (i + 2)
  | '\n' :: rest, i => (i + 1) :: getLinePositionsGo rest (i + 1)
  | _ :: rest, i => getLinePositionsGo rest (i + 1)

/-- Mirrors getLinePositions: 0 followed by the offset after every line
break. -/
def getLinePositions (s : String) : List Nat :=
  0 :: getLinePositionsGo s.data 0

/-- Binary-search loop of getLCIndex: narrow [lb, rb) to the largest index
whose recorded offset does not exceed pos. -/
def getLCIndexSearch (record : List Nat) (pos : Int) :
    Nat → Nat → Nat → Nat
  | 0, lb, _ => lb
  | fuel + 1, lb, rb =>
    if rb - lb > 1 then
      let mb := (rb + lb) / 2
      if (((record.get? mb).getD 0 : Nat) : Int) > pos then
        getLCIndexSearch record pos fuel lb mb
      else
        getLCIndexSearch record pos fuel mb rb
    else lb

/-- Mirrors getLCIndex over a precomputed line-start table. -/
def getLCIndex (record : List Nat) (pos : Int)
    (lineOneBased columnOneBased : Bool) : Position :=
  let ob : Int := if lineOneBased then 1 else 0
  let obc : Int := if columnOneBased then 1 else 0
  match record.get? 0 with
  | none => ⟨-1 + ob, pos - pos + obc⟩
  | some r0 =>
    if pos < (r0 : Int) then ⟨-1 + ob, pos - (r0 : Int) + obc⟩
    else
      let last := (record.getLast?).getD r0
      if (last : Int) ≤ pos then
        ⟨(record.length : Int) - 1 + ob, pos - (last : Int) + obc⟩
      else
        let lb := getLCIndexSearch record pos (record.length + 2) 0 record.length
        ⟨(lb : Int) + ob, pos - (((record.get? lb).getD 0 : Nat) : Int) + obc⟩

/-! ## Lexer engine (lexer/lexer.ts)

Regular-expression patterns are modelled by their source and flags
together with an abstract sticky matcher function assigning to every
input and start position the optional match result (matched lexeme, match
index, the lastIndex left on the pattern, capture groups); literal string
patterns are matched by prefix comparison exactly as the source does. -/

/-- Result of a successful RegExp.exec against the sticky pattern. -/
structure ReMatch where
  lexeme : String
  index : Nat
  lastIndex : Nat
  groups : List (Option String) := []

/-- Token handler: lexeme, match index, optional match array. -/
def THandler : Type := String → Int → Option ReMatch → JVal

/-- Token name selector; returning none discards the token. -/
def TNameSel : Type := JVal → String → Option String

/-- Lexer pattern: literal string or compiled regular expression. -/
inductive LexPat where
  | lit (s : String)
  | re (source flags : String) (matcher : String → Nat → Option ReMatch)

/-- Runtime lexer record (name, pattern, handler, name selector). -/
structure LexerRecord where
  name : String
  pat : LexPat
  f : THandler
  n : Option TNameSel

/-- Runtime lexer state-independent data. -/
structure LexerM where
  records : List LexerRecord
  eofName : String
  eofValue : JVal
  dummyHandler : THandler

/-- Structured lexer failures (LexerError in the source), with the
positions the source interpolates into its messages. -/
inductive LexErr where
  | noInput
  | invalidPos (p : Int)
  | zeroLength (pos : Int) (p : Position)
  | unknownToken (pos : Int) (p : Position)
  | fuelOut
  deriving DecidableEq, Repr

/-- Mirrors str.startsWith(pat, pos). -/
def strStartsWithAt (str pat : String) (pos : Int) : Bool :=
  0 ≤ pos && ((str.data.drop pos.toNat).take pat.data.length == pat.data)

/-- Outcome of one record attempt at the current position. -/
structure MatchOutcome where
  lexeme : String
  lexemeIndex : Int
  arr : Option ReMatch
  newPos : Int
  advanced : Bool

/-- One record attempt: regex records consult the sticky matcher with
lastIndex set to the current position; string records prefix-match.  The
position advances only when the call was made with advance set. -/
def tryRecord (str : String) (origPos : Int) (advance : Bool) :
    LexPat → Option MatchOutcome
  | .re _ _ matcher =>
    match matcher str origPos.toNat with
    | some m =>
      some { lexeme := m.lexeme, lexemeIndex := (m.index : Int), arr := some m,
             newPos := if advance then (m.lastIndex : Int) else origPos,
             advanced := advance }
    | none => none
  | .lit s =>
    if strStartsWithAt str s origPos then
      some { lexeme := s, lexemeIndex := origPos, arr := none,
             newPos := if advance then origPos + (s.length : Int) else origPos,
             advanced := advance }
    else none

/-- First record that matches at the current position. -/
def firstMatch (str : String) (origPos : Int) (advance : Bool) :
    List LexerRecord → Option (LexerRecord × MatchOutcome)
  | [] => none
  | r :: rest =>
    match tryRecord str origPos advance r.pat with
    | some mo => some (r, mo)
    | none => firstMatch str origPos advance rest

/-- Mirrors Lexer.nextToken on an assigned input string: EOF token at or
past the end, otherwise first-match dispatch with the zero-length check,
handler invocation, name selection and discard recursion (which always
advances). -/
def nextTokenGo (l : LexerM) (str : String) (rec : List Nat) :
    Nat → Int → Bool → Except LexErr (PToken × Int)
  | 0, _, _ => .error .fuelOut
  | fuel + 1, pos, advance =>
    let origPos := pos
    if origPos < 0 ∨ (str.length : Int) < origPos then
      .error (.invalidPos origPos)
    else if (str.length : Int) ≤ origPos then
      .ok ({ name := l.eofName, value := l.eofValue, lexeme := l.eofName,
             position := some origPos,
             pos := some (getLCIndex rec pos true false) }, pos)
    else
      match firstMatch str origPos advance l.records with
      | none => .error (.unknownToken origPos (getLCIndex rec origPos true false))
      | some (r, mo) =>
        if mo.advanced = true ∧ mo.newPos = origPos then
          .error (.zeroLength mo.newPos (getLCIndex rec mo.newPos true false))
        else
          let value := r.f mo.lexeme mo.lexemeIndex mo.arr
          match r.n with
          | some nsel =>
            match nsel value mo.lexeme with
            | none => nextTokenGo l str rec fuel mo.newPos true
            | some rn =>
              .ok ({ name := rn, lexeme := mo.lexeme, value := value,
                     position := some mo.lexemeIndex,
                     pos := some (getLCIndex rec mo.lexemeIndex true false) }, mo.newPos)
          | none =>
            .ok ({ name := r.name, lexeme := mo.lexeme, value := value,
                   position := some mo.lexemeIndex,
                   pos := some (getLCIndex rec mo.lexemeIndex true false) }, mo.newPos)

/-- Lexer.nextToken entry point with the line table computed from the
input. -/
def nextToken (l : LexerM) (str : String) (pos : Int) (advance : Bool)
    (fuel : Nat) : Except LexErr (PToken × Int) :=
  nextTokenGo l str (getLinePositions str) fuel pos advance

/-! ## Lexer construction and serialization (lexer/lexer.ts) -/

/-- ActionRecord entry referenced by handlerIndex. -/
structure LActionRec where
  handler : Option THandler
  nameSelector : Option TNameSel

/-- TokenRecord entering the Lexer constructor. -/
structure TokenRecord where
  name : String
  pattern : String
  flags : Option String
  isRegExp : Option Bool
  handlerIndex : Nat

/-- Flags defaulting of the constructor: flags || "y". -/
def normFlags : Option String → String
  | some f => if f = "" then "y" else f
  | none => "y"

/-- Mirrors the Lexer constructor: compile regex records through the
ambient RegExp compiler, resolve handlers through the action table with
the dummy handler as fallback. -/
def mkLexer (compileRe : String → String → (String → Nat → Option ReMatch))
    (actions : List LActionRec) (records : List TokenRecord)
    (eofName : Option String) (eofValue : JVal) (dummyHandler : THandler) :
    LexerM :=
  { records := records.map (fun rec =>
      let pat : LexPat :=
        if rec.isRegExp = some true then
          .re rec.pattern (normFlags rec.flags) (compileRe rec.pattern (normFlags rec.flags))
        else .lit rec.pattern
      let a := (actions.get? rec.handlerIndex).getD ⟨none, none⟩
      { name := rec.name, pat := pat, f := a.handler.getD dummyHandler,
        n := a.nameSelector })
    eofName := match eofName with
      | some s => if s = "" then DEFAULT_EOF_TOKEN else s
      | none => DEFAULT_EOF_TOKEN
    eofValue := eofValue
    dummyHandler := dummyHandler }

/-- Serialized lexer record shape, parametric in the serialized-function
types. -/
structure SerLexRecord (F G : Type) where
  name : String
  pattern : String
  flags : Option String
  isRegExp : Option Bool
  handler : F
  nameSelector : Option G

/-- SerializedLexer shape. -/
structure SerializedLexer (F G : Type) where
  records : List (SerLexRecord F G)
  eofName : String
  eofValue : JVal
  dummyHandler : F

/-- Mirrors Lexer.serialize. -/
def serializeLexer {F G : Type} (sf : THandler → F) (sg : TNameSel → G)
    (l : LexerM) : SerializedLexer F G :=
  { records := l.records.map (fun rec =>
      { name := rec.name
        pattern := match rec.pat with
          | .re src _ _ => src
          | .lit s => s
        flags := match rec.pat with
          | .re _ fl _ => some fl
          | .lit _ => none
        isRegExp := match rec.pat with
          | .re _ _ _ => some true
          | .lit _ => none
        handler := sf rec.f
        nameSelector := rec.n.map sg })
    eofName := l.eofName
    eofValue := l.eofValue
    dummyHandler := sf l.dummyHandler }

/-- Mirrors Lexer.deserialize: rebuild the action table and token records
with per-record handler indices and run the constructor. -/
def deserializeLexer {F G : Type}
    (compileRe : String → String → (String → Nat → Option ReMatch))
    (df : F → THandler) (dg : G → TNameSel)
    (ser : SerializedLexer F G) : LexerM :=
  let dummyHandler := df ser.dummyHandler
  let actions : List LActionRec := ser.records.map (fun rec =>
    { handler := some (df rec.handler), nameSelector := rec.nameSelector.map dg })
  let records : List TokenRecord :=
    ser.records.enum.map (fun p =>
      { name := p.2.name, pattern := p.2.pattern, flags := p.2.flags,
        isRegExp := p.2.isRegExp, handlerIndex := p.1 })
  mkLexer compileRe actions records (some ser.eofName) ser.eofValue dummyHandler

/-! ## EBNF to BNF lowering (ebnf/ebnf.ts) -/

/-- EbnfElement tags. -/
inductive EbnfTy where
  | optional
  | repeat
  | group
  | mult
  deriving DecidableEq, Repr

/-- Element of a complex expression: a plain BNF element or an EBNF
element carrying an optional multiplicity and inner alternatives. -/
inductive CElem where
  | bnf (e : BnfE)
  | ebnf (ty : EbnfTy) (mult : Option Int) (productionList : List (List CElem))

/-- The isEbnf tag. -/
def CElem.isEbnfB : CElem → Bool
  | .ebnf _ _ _ => true
  | .bnf _ => false

/-- Complex production: possibly-EBNF body plus an action that is a
handler index or a handler modifier. -/
structure ComplexProduction where
  name : String
  expr : List CElem
  action : Option (Nat ⊕ HandlerModifier)

/-- Leftmost EBNF element with its index, the prefix before it and the
suffix after it (the for-loop scan of convertSingle). -/
def findEbnfGo : Nat → List CElem → List CElem →
    Option (Nat × List CElem × EbnfTy × Option Int × List (List CElem) × List CElem)
  | _, _, [] => none
  | i, pre, (.bnf e) :: rest => findEbnfGo (i + 1) (pre ++ [.bnf e]) rest
  | i, pre, (.ebnf ty m pl) :: rest => some (i, pre, ty, m, pl, rest)

/-- Scan an expression for its leftmost EBNF element. -/
def findEbnf (expr : List CElem) : Option (Nat × List CElem × EbnfTy × Option Int × List (List CElem) × List CElem) :=
  findEbnfGo 0 [] expr

/-- Mirrors Array.prototype.repeat followed by flat: t concatenated
copies, empty when t is below one. -/
def jsRepeat (pl : List CElem) (t : Int) : List CElem :=
  if t < 1 then [] else (List.replicate t.toNat pl).flatten

/-- Productions pushed onto the worklist for one EBNF element, in push
order, together with the updated fresh-name state. -/
def convertStep {σ : Type} (alloc : σ → String → String × σ) (s : σ)
    (current : ComplexProduction) (i : Nat) (pre : List CElem) (ty : EbnfTy)
    (mlt : Option Int) (plist : List (List CElem)) (post : List CElem) :
    List ComplexProduction × σ :=
  match ty with
  | .optional =>
    let first : ComplexProduction :=
      { name := current.name, expr := pre ++ post,
        action := some (.inr (HandlerModifier.mk
          (if mlt.isNone then "epsilon" else "merge")
          current.action
          (if mlt.isNone then [(i : Int)] else [(i : Int), 0]))) }
    let m := mlt.getD 1
    let copies : List ComplexProduction :=
      if m < 1 then []
      else (List.range m.toNat).flatMap (fun t0 =>
        plist.map (fun pl =>
          { name := current.name
            expr := pre ++ jsRepeat pl ((t0 : Int) + 1) ++ post
            action := if mlt.isNone then current.action
              else some (.inr (HandlerModifier.mk "merge" current.action
                [(i : Int), (t0 : Int) + 1])) }))
    (first :: copies, s)
  | .repeat =>
    let (dashed, s2) := alloc s (current.name ++ "_RPT_PRE_0")
    let collectProd : ComplexProduction :=
      { name := dashed, expr := pre,
        action := some (.inr (HandlerModifier.mk "collect" none [-1])) }
    let appendProds : List ComplexProduction :=
      plist.map (fun pl =>
        { name := dashed, expr := CElem.bnf (.identifier dashed) :: pl,
          action := some (.inr (HandlerModifier.mk "append" none [1, 1])) })
    let applyProd : ComplexProduction :=
      { name := current.name, expr := CElem.bnf (.identifier dashed) :: post,
        action := some (.inr (HandlerModifier.mk "apply" current.action [0])) }
    (collectProd :: appendProds ++ [applyProd], s2)
  | .mult =>
    let m0 := mlt.getD 0
    let m := if m0 < 0 then 0 else m0
    (plist.map (fun pl =>
      { name := current.name, expr := pre ++ jsRepeat pl m ++ post,
        action := some (.inr (HandlerModifier.mk "merge" current.action
          [(i : Int), m])) }), s)
  | .group =>
    let m := mlt.getD 1
    if m < 1 then
      ([{ name := current.name, expr := pre ++ post,
          action := some (.inr (HandlerModifier.mk "collect" current.action
            [(i : Int), 0])) }], s)
    else
      let arr := (List.range m.toNat).foldl
        (fun arr _ => arr.flatMap (fun x => plist.map (fun y => x ++ y))) [pre]
      (arr.map (fun prod2 =>
        { name := current.name, expr := prod2 ++ post,
          action := some (.inr (HandlerModifier.mk "merge" current.action
            [(i : Int), m])) }), s)

/-- Worklist loop of convertSingle: pop the last production; emit it when
it has no EBNF element, otherwise rewrite its leftmost EBNF element and
push the resulting productions. -/
def convertSingleGo {σ : Type} (alloc : σ → String → String × σ) :
    Nat → σ → List ComplexProduction → List ComplexProduction →
    List ComplexProduction × σ
  | 0, s, _, ret => (ret, s)
  | fuel + 1, s, cache, ret =>
    match cache.getLast? with
    | none => (ret, s)
    | some current =>
      let cache0 := cache.dropLast
      match findEbnf current.expr with
      | none => convertSingleGo alloc fuel s cache0 (ret ++ [current])
      | some (i, pre, ty, mlt, plist, post) =>
        let (pushed, s2) := convertStep alloc s current i pre ty mlt plist post
        convertSingleGo alloc fuel s2 (cache0 ++ pushed) ret

/-- Mirrors convertSingle: lower one complex production to plain
productions. -/
def convertSingle {σ : Type} (alloc : σ → String → String × σ) (fuel : Nat)
    (s : σ) (prod : ComplexProduction) : List ComplexProduction × σ :=
  convertSingleGo alloc fuel s [prod] []

/-- Name-collision loop of the getName closure in convertToBnf. -/
def getNameLoop (terminals : List String) :
    Nat → List String → String → String
  | 0, _, n => n
  | fuel + 1, nts, n =>
    if nts.contains n || terminals.contains n then
      getNameLoop terminals fuel nts (getIncrementName n)
    else n

/-- Mirrors the getName closure of convertToBnf: increment the candidate
name until it clashes with no non-terminal or terminal, then record it as
a non-terminal.  The non-terminal set is the threaded state. -/
def getNameAlloc (terminals : List String) (nts : List String)
    (initName : String) : String × List String :=
  let nm := getNameLoop terminals (nts.length + terminals.length + 1) nts initName
  (nm, nts ++ [nm])

/-! ## Definitions supporting the claim theorems -/

/-- Specification rule for the default production operator: the last
terminal in the body that is present in the operator table. -/
def specLastOperator (prod : Production)
    (oprMap : List (String × OperatorDefinition)) : Option OperatorDefinition :=
  ((prod.body.filter (fun s => isTerminal s && (aget oprMap s.name).isSome)).getLast?).bind
    (fun s => aget oprMap s.name)

/-- First body symbol whose name is present in the operator table, written
as a direct scan for comparison with defaultOperatorHandler. -/
def specFirstOperator (prod : Production)
    (oprMap : List (String × OperatorDefinition)) : Option OperatorDefinition :=
  (prod.body.find? (fun s => (aget oprMap s.name).isSome)).bind
    (fun s => aget oprMap s.name)

/-- Operator table with two distinct operators used to separate the
first-match rule from the last-match rule. -/
def c2Ops : List (String × OperatorDefinition) :=
  [("a", ⟨"a", .left, 1⟩), ("b", ⟨"b", .left, 2⟩)]

/-- Production whose body carries two distinct operator terminals. -/
def c2Prod : Production := ⟨.nt "E", [.t "a", .t "b"]⟩

/-- FIRST map on which the symbol X is nullable but also derives the
terminal a: the situation FIRST(X) = set of a and epsilon. -/
def c3First : List (String × List GSymbol) :=
  [("<<X>>", [GSymbol.t "a", GSymbol.epsSym])]

/-- E → E + E with the + token and no operator declarations. -/
def c4GrammarNoOps : GrammarDefinition :=
  { tokens := ["+"]
    productions := [⟨"E", [.identifier "E", .identifier "+", .identifier "E"], none⟩]
    actions := [], operators := [] }

/-- The same grammar with opr left + (precedence 65535, as assigned by the
builder). -/
def c4GrammarWithOps : GrammarDefinition :=
  { tokens := ["+"]
    productions := [⟨"E", [.identifier "E", .identifier "+", .identifier "E"], none⟩]
    actions := [], operators := [⟨"+", .left, 65535⟩] }

/-- Production whose body contains no operator-table symbol, so the
conflict filter yields none while the lookahead + is in the table. -/
def c4Prods : List Production := [⟨.nt "E", [.nt "E", .t "*", .nt "E"]⟩]

/-- Operator table containing only +. -/
def c4Ops : List (String × OperatorDefinition) := [("+", ⟨"+", .left, 65535⟩)]

/-- An expression is plain when it holds no EBNF element. -/
def allPlain (l : List CElem) : Bool := l.all (fun e => !e.isEbnfB)

/-- Collect production emitted by the repeat branch: pre → α. -/
def rptCollectProd (dashed : String) (α : List CElem) : ComplexProduction :=
  ⟨dashed, α, some (.inr (HandlerModifier.mk "collect" none [-1]))⟩

/-- Append production emitted by the repeat branch: pre → pre X. -/
def rptAppendProd (dashed : String) (pl : List CElem) : ComplexProduction :=
  ⟨dashed, CElem.bnf (.identifier dashed) :: pl,
    some (.inr (HandlerModifier.mk "append" none [1, 1]))⟩

/-- Rewritten outer production of the repeat branch: Head → pre β. -/
def rptApplyProd (head dashed : String) (act : Option (Nat ⊕ HandlerModifier))
    (β : List CElem) : ComplexProduction :=
  ⟨head, CElem.bnf (.identifier dashed) :: β,
    some (.inr (HandlerModifier.mk "apply" act [0]))⟩

/-- Input production S → a repeat(X) b used to separate the emitted
collect production from the claimed epsilon production. -/
def c5Input : ComplexProduction :=
  ⟨"S", [CElem.bnf (.identifier "a"),
         CElem.ebnf .repeat none [[CElem.bnf (.identifier "X")]],
         CElem.bnf (.identifier "b")], some (.inl 0)⟩

/-- Concrete parsed grammar for the round-trip witness. -/
def c6P : ParsedGrammar :=
  { action := [(0, [(2, .shift 2)]), (1, [(0, .accept)]), (2, [(0, .reduce 1 1 0)])]
    goto := [(0, [(1, 1)])], actionMode := "function", actions := [none]
    startState := 0
    symbols := [.t "<<EOF>>", .nt "S", .t "a"]
    symbolsTable := [("<<EOF>>", 0), ("S", 1), ("a", 2)] }

/-- Concrete lexer for the round-trip witness. -/
def c6L : LexerM :=
  { records := [{ name := "A", pat := .lit "a", f := fun lx _ _ => .str lx, n := none }]
    eofName := "EOF", eofValue := .str "EOF", dummyHandler := fun _ _ _ => .undefV }

/-- Lexer with a single sticky regex that can match the empty lexeme
(such as a-star on an input not starting with a). -/
def c7Lexer : LexerM :=
  { records := [{ name := "A", pat := .re "a*" "y" (fun _ p => some ⟨"", p, p, []⟩),
                  f := fun lx _ _ => .str lx, n := none }]
    eofName := "EOF", eofValue := .str "EOF", dummyHandler := fun _ _ _ => .undefV }

/-- Well-behaved lexer rules on a given input: every regex match advances
its lastIndex past the start position and stays inside the input (the
behaviour of a sticky regex whose match is non-empty), and every literal
pattern is non-empty. -/
def WellBehaved (l : LexerM) (str : String) : Prop :=
  ∀ r ∈ l.records,
    (∀ src fl matcher, r.pat = LexPat.re src fl matcher →
      ∀ (p : Nat) m, matcher str p = some m →
        p < m.lastIndex ∧ m.lastIndex ≤ str.length)
    ∧ (∀ s, r.pat = LexPat.lit s → s ≠ "")

/-- Repeated advancing nextToken calls, threading the position. -/
def advanceK (l : LexerM) (str : String) (rec : List Nat) (fuel : Nat) :
    Nat → Int → Except LexErr Int
  | 0, pos => .ok pos
  | k + 1, pos =>
    match nextTokenGo l str rec fuel pos true with
    | .error e => .error e
    | .ok (_, p2) => advanceK l str rec fuel k p2

/-- Lexer over the single literal rule a used in the C8 counterexample
and witness. -/
def c8Lexer : LexerM :=
  { records := [{ name := "A", pat := .lit "a", f := fun lx _ _ => .str lx, n := none }]
    eofName := "EOF", eofValue := .str "EOF", dummyHandler := fun _ _ _ => .undefV }

/-- User handler of the witness grammar: return the first reduced value. -/
def c9Handler : PHandler := fun vs => (vs.get? 0).getD .undefV

/-- Grammar S → a with a user handler at index 0. -/
def c9Grammar : GrammarDefinition :=
  { tokens := ["a"]
    productions := [⟨"S", [.identifier "a"], some (.num 0)⟩]
    actions := [some c9Handler], operators := [] }

/-- Token stream holding the single token a with value AV. -/
def c9Stream : WrappedTokenArray :=
  { tokens := [{ name := "a", lexeme := "a", value := .str "AV" }]
    eofName := "<<EOF>>" }

/-- Table accepting immediately at the start state, used to witness the
top-frame-value property. -/
def c9AcceptP : ParsedGrammar :=
  { action := [(0, [(0, .accept)])], goto := [], actionMode := "function"
    actions := [], startState := 0, symbols := [.t "<<EOF>>"]
    symbolsTable := [("<<EOF>>", 0)] }

/-- Empty token stream. -/
def c9EmptyStream : WrappedTokenArray := { tokens := [], eofName := "<<EOF>>" }

/-! ## Theorems for the claims -/

/-! ## Claim C2 -/

/-- C2 counterexample: for the production E → a b with both a and b in the
operator table, defaultOperatorHandler returns the operator of a (the
first matching body symbol), while the claimed rule (last terminal in the
body present in the table) selects the operator of b; the two differ. -/
theorem c2_defaultOperator_not_last :
    defaultOperatorHandler c2Prod c2Ops = some ⟨"a", .left, 1⟩
    ∧ specLastOperator c2Prod c2Ops = some ⟨"b", .left, 2⟩
    ∧ (⟨"a", .left, 1⟩ : OperatorDefinition) ≠ ⟨"b", .left, 2⟩ := by
  refine ⟨by decide, by decide, by decide⟩

/-- C2 amended: with no user-supplied filter, the operator used to resolve
a production's shift/reduce conflicts is that of the first symbol in the
production body whose name appears in the operator table. -/
theorem c2_defaultOperator_is_first (prod : Production)
    (oprMap : List (String × OperatorDefinition)) :
    defaultOperatorHandler prod oprMap = specFirstOperator prod oprMap := by
  unfold defaultOperatorHandler specFirstOperator
  induction prod.body with
  | nil => rfl
  | cons s rest ih =>
    by_cases h : (aget oprMap s.name).isSome
    · obtain ⟨v, hv⟩ := Option.isSome_iff_exists.mp h
      simp [defaultOperatorHandler.go, List.find?, h, hv]
    · have hv : aget oprMap s.name = none := Option.not_isSome_iff_eq_none.mp h
      simp only [defaultOperatorHandler.go, List.find?, hv, h] at ih ⊢
      simpa [Bool.false_eq_true] using ih

/-! ## Claim C3 -/

/-- C3: computeFirst on the sequence consisting of the single nullable
symbol X with FIRST(X) containing both a and epsilon returns only a:
epsilon is dropped because the collected set is non-empty, contradicting
the specified FIRST-of-sequence rule (epsilon whenever every member
derives epsilon). -/
theorem c3_computeFirst_eps_dropped :
    computeFirst [GSymbol.nt "X"] c3First = [GSymbol.t "a"]
    ∧ GSymbol.epsSym ∈ (aget c3First "<<X>>").getD []
    ∧ GSymbol.epsSym ∉ computeFirst [GSymbol.nt "X"] c3First := by
  refine ⟨by decide, by decide, by decide⟩

/-! ## Claim C1 -/

/-- C1: on a shift/reduce collision whose lookahead is in the operator
table, under the default policy (default filter, shiftReduce unset), when
the filter yields an operator for the reduce production the cell becomes:
shift when the lookahead precedence is strictly greater, reduce when
strictly smaller, and on a tie reduce for left, shift for right, and a
non-associative error entry for nonassoc — for either order of the
colliding actions. -/
theorem c1_operator_conflict_resolution
    (productions : List Production)
    (operators : List (String × OperatorDefinition))
    (p hd ln sTgt : Nat) (prod : Production)
    (hlen : p < productions.length)
    (hp : productions.get? p = some prod)
    (a : GSymbol) (aOp : OperatorDefinition)
    (ha : aget operators a.name = some aOp)
    (rOp : OperatorDefinition)
    (hf : defaultOperatorHandler prod operators = some rOp) :
    resolveConflict productions operators defaultOperatorHandler none
      (.reduce hd ln (p : Int)) (.shift sTgt) a
      = .ok (if rOp.prior < aOp.prior then .shift sTgt
             else if aOp.prior < rOp.prior then .reduce hd ln (p : Int)
             else match rOp.assoc with
               | .left => .reduce hd ln (p : Int)
               | .right => .shift sTgt
               | .nonassoc => .error (nonAssocMsg rOp))
    ∧ resolveConflict productions operators defaultOperatorHandler none
      (.shift sTgt) (.reduce hd ln (p : Int)) a
      = .ok (if rOp.prior < aOp.prior then .shift sTgt
             else if aOp.prior < rOp.prior then .reduce hd ln (p : Int)
             else match rOp.assoc with
               | .left => .reduce hd ln (p : Int)
               | .right => .shift sTgt
               | .nonassoc => .error (nonAssocMsg rOp)) := by
  have hnotlow : ¬((p : Int) < 0 ∨ (productions.length : Int) ≤ (p : Int)) := by
    push_neg
    exact ⟨Int.natCast_nonneg p, by exact_mod_cast hlen⟩
  have htn : ((p : Int)).toNat = p := Int.toNat_natCast p
  have key : resolveSR productions operators defaultOperatorHandler none
      (.shift sTgt) (.reduce hd ln (p : Int)) a
      = .ok (if rOp.prior < aOp.prior then .shift sTgt
             else if aOp.prior < rOp.prior then .reduce hd ln (p : Int)
             else match rOp.assoc with
               | .left => .reduce hd ln (p : Int)
               | .right => .shift sTgt
               | .nonassoc => .error (nonAssocMsg rOp)) := by
    unfold resolveSR
    simp only
    rw [if_neg hnotlow, htn, hp]
    simp only [ha, hf]
    rcases lt_trichotomy aOp.prior rOp.prior with hlt | heq | hgt
    · simp [ne_of_lt hlt, not_lt.mpr hlt.le, hlt]
    · rw [if_pos heq, if_neg (heq ▸ lt_irrefl rOp.prior),
        if_neg (heq ▸ lt_irrefl rOp.prior)]
      cases rOp.assoc <;> rfl
    · simp [ne_of_gt hgt, hgt, not_lt.mpr hgt.le]
  exact ⟨key, key⟩

/-- Concrete instantiation witnessing C1 at operators of equal precedence
and left associativity. -/
theorem c1_operator_conflict_resolution_witness :
    ([⟨GSymbol.nt "E", [GSymbol.nt "E", GSymbol.t "+", GSymbol.nt "E"]⟩] :
      List Production).get? 0
      = some ⟨GSymbol.nt "E", [GSymbol.nt "E", GSymbol.t "+", GSymbol.nt "E"]⟩
    ∧ resolveConflict
        [⟨GSymbol.nt "E", [GSymbol.nt "E", GSymbol.t "+", GSymbol.nt "E"]⟩]
        [("+", ⟨"+", .left, 5⟩)] defaultOperatorHandler none
        (.reduce 1 3 (0 : Int)) (.shift 2) (GSymbol.t "+")
      = .ok (if (5 : Int) < 5 then .shift 2
             else if (5 : Int) < 5 then .reduce 1 3 (0 : Int)
             else match Assoc.left with
               | .left => .reduce 1 3 (0 : Int)
               | .right => .shift 2
               | .nonassoc => .error (nonAssocMsg ⟨"+", .left, 5⟩)) := by
  refine ⟨by decide, ?_⟩
  exact (c1_operator_conflict_resolution
    [⟨GSymbol.nt "E", [GSymbol.nt "E", GSymbol.t "+", GSymbol.nt "E"]⟩]
    [("+", ⟨"+", .left, 5⟩)] 0 1 3 2
    ⟨GSymbol.nt "E", [GSymbol.nt "E", GSymbol.t "+", GSymbol.nt "E"]⟩
    (by decide) (by decide) (GSymbol.t "+") ⟨"+", .left, 5⟩ (by decide)
    ⟨"+", .left, 5⟩ (by decide)).1

/-! ## Claim C4 -/

/-- C4 counterexample: lookahead + is in the operator table, the filter
yields no operator for the reduce production, and the policy requests
shift — yet resolution raises a fatal conflict error instead of keeping
the shift action. -/
theorem c4_policy_ignored_when_lookahead_in_table :
    resolveConflict c4Prods c4Ops defaultOperatorHandler (some .shiftP)
      (.reduce 1 3 (0 : Int)) (.shift 2) (.t "+")
      = .error (.conflict "Shift/Reduce" "+")
    ∧ resolveConflict c4Prods c4Ops defaultOperatorHandler (some .shiftP)
        (.reduce 1 3 (0 : Int)) (.shift 2) (.t "+")
      ≠ .ok (.shift 2) := by
  refine ⟨rfl, fun h => by cases h⟩

/-- C4 amended: the shiftReduce policy fallback (shift keeps shift,
reduce keeps reduce, otherwise a fatal conflict error) applies exactly
when the lookahead terminal is not in the operator table; when the
lookahead is in the table but the conflict filter yields no operator, a
fatal conflict error is raised regardless of the policy.  The grammar
E → E + E without operator declarations fails to build with the combined
conflict failure, and adding opr left + makes the build succeed. -/
theorem c4_policy_fallback
    (productions : List Production)
    (operators : List (String × OperatorDefinition))
    (filt : Production → List (String × OperatorDefinition) → Option OperatorDefinition)
    (sr : Option SRPolicyOpt)
    (p hd ln sTgt : Nat) (prod : Production)
    (hlen : p < productions.length)
    (hp : productions.get? p = some prod)
    (a : GSymbol) :
    (aget operators a.name = none →
      resolveConflict productions operators filt sr
        (.reduce hd ln (p : Int)) (.shift sTgt) a
      = (match sr with
         | some .reduceP => .ok (.reduce hd ln (p : Int))
         | some .shiftP => .ok (.shift sTgt)
         | _ => .error (.conflict "Shift/Reduce" a.name))
      ∧ resolveConflict productions operators filt sr
        (.shift sTgt) (.reduce hd ln (p : Int)) a
      = (match sr with
         | some .reduceP => .ok (.reduce hd ln (p : Int))
         | some .shiftP => .ok (.shift sTgt)
         | _ => .error (.conflict "Shift/Reduce" a.name)))
    ∧ (∀ aOp, aget operators a.name = some aOp → filt prod operators = none →
      resolveConflict productions operators filt sr
        (.reduce hd ln (p : Int)) (.shift sTgt) a
      = .error (.conflict "Shift/Reduce" a.name)
      ∧ resolveConflict productions operators filt sr
        (.shift sTgt) (.reduce hd ln (p : Int)) a
      = .error (.conflict "Shift/Reduce" a.name))
    ∧ LRGeneratorRun c4GrammarNoOps 100
      = .error (.fault (autoFailMsg (.conflict "Shift/Reduce" "+")
          (.conflict "Shift/Reduce" "+") (.conflict "Shift/Reduce" "+")))
    ∧ (LRGeneratorRun c4GrammarWithOps 100).isOk = true := by
  have hnotlow : ¬((p : Int) < 0 ∨ (productions.length : Int) ≤ (p : Int)) := by
    push_neg
    exact ⟨Int.natCast_nonneg p, by exact_mod_cast hlen⟩
  have htn : ((p : Int)).toNat = p := Int.toNat_natCast p
  refine ⟨fun hnone => ?_, fun aOp haOp hfnone => ?_, by rfl, by rfl⟩
  · have key : resolveSR productions operators filt sr
        (.shift sTgt) (.reduce hd ln (p : Int)) a
        = (match sr with
           | some .reduceP => .ok (.reduce hd ln (p : Int))
           | some .shiftP => .ok (.shift sTgt)
           | _ => .error (.conflict "Shift/Reduce" a.name)) := by
      unfold resolveSR
      simp only
      rw [if_neg hnotlow, htn, hp]
      simp only [hnone]
    exact ⟨key, key⟩
  · have key : resolveSR productions operators filt sr
        (.shift sTgt) (.reduce hd ln (p : Int)) a
        = .error (.conflict "Shift/Reduce" a.name) := by
      unfold resolveSR
      simp only
      rw [if_neg hnotlow, htn, hp]
      simp only [haOp, hfnone]
    exact ⟨key, key⟩

/-- Concrete instantiation witnessing C4 as amended: lookahead outside the
operator table with the policy set to shift keeps the shift action. -/
theorem c4_policy_fallback_witness :
    (0 : Nat) < c4Prods.length
    ∧ resolveConflict c4Prods [] defaultOperatorHandler (some .shiftP)
        (.reduce 1 3 (0 : Int)) (.shift 2) (.t "+")
      = (match (some SRPolicyOpt.shiftP : Option SRPolicyOpt) with
         | some .reduceP => .ok (.reduce 1 3 (0 : Int))
         | some .shiftP => .ok (.shift 2)
         | _ => .error (.conflict "Shift/Reduce" "+")) := by
  refine ⟨by decide, ?_⟩
  exact ((c4_policy_fallback c4Prods [] defaultOperatorHandler (some .shiftP)
    0 1 3 2 ⟨.nt "E", [.nt "E", .t "*", .nt "E"]⟩ (by decide) (by decide)
    (.t "+")).1 (by decide)).1

/-! ## Claim C10 -/

/-- C10: for every grammar definition and fuel, the constructor dispatch
equals the automatic-fallback computation (the upper-cased mode string
never matches the lowercase literals), and the automatic fallback tries
SLR, then LALR(1), then canonical LR(1), keeping the first success and
combining the three failure messages otherwise. -/
theorem c10_mode_dispatch_always_auto (g : GrammarDefinition) (fuel : Nat) :
    LRGeneratorRun g fuel = computeAutoRun g fuel
    ∧ computeAutoRun g fuel =
      (match computeModeRun .slr g fuel with
       | .ok t => .ok t
       | .error e1 =>
         match computeModeRun .lalr g fuel with
         | .ok t => .ok t
         | .error e2 =>
           match computeModeRun .lr1 g fuel with
           | .ok t => .ok t
           | .error e3 => .error (.fault (autoFailMsg e1 e2 e3))) := by
  constructor
  · unfold LRGeneratorRun
    match h : g.mode with
    | none => rfl
    | some .slr => rfl
    | some .lalr => rfl
    | some .lr1 => rfl
  · rfl

/-! ## Claim C5 -/

/-- A plain expression has no leftmost EBNF element. -/
theorem findEbnfGo_of_allPlain (l : List CElem) (h : allPlain l = true) :
    ∀ i pre, findEbnfGo i pre l = none := by
  induction l with
  | nil => intro i pre; rfl
  | cons x rest ih =>
    intro i pre
    cases x with
    | bnf e =>
      have hrest : allPlain rest = true := by
        simpa [allPlain, List.all_cons, CElem.isEbnfB] using h
      simpa [findEbnfGo] using ih hrest (i + 1) (pre ++ [.bnf e])
    | ebnf ty m pl =>
      simp [allPlain, List.all_cons, CElem.isEbnfB] at h

/-- The scan finds the EBNF element standing after a plain prefix,
reporting its index and the surrounding pieces. -/
theorem findEbnfGo_append (ty : EbnfTy) (m : Option Int)
    (pl : List (List CElem)) (β : List CElem) :
    ∀ (α : List CElem), allPlain α = true →
    ∀ i pre, findEbnfGo i pre (α ++ .ebnf ty m pl :: β)
      = some (i + α.length, pre ++ α, ty, m, pl, β) := by
  intro α
  induction α with
  | nil => intro _ i pre; simp [findEbnfGo]
  | cons x rest ih =>
    intro h i pre
    cases x with
    | bnf e =>
      have hrest : allPlain rest = true := by
        simpa [allPlain, List.all_cons, CElem.isEbnfB] using h
      have heq := ih hrest (i + 1) (pre ++ [CElem.bnf e])
      have harith : i + 1 + rest.length = i + (rest.length + 1) := by omega
      have hlist : pre ++ [CElem.bnf e] ++ rest = pre ++ CElem.bnf e :: rest := by
        simp
      simp only [List.cons_append, findEbnfGo, List.append_eq, heq, harith, hlist,
        List.length_cons]
    | ebnf ty2 m2 pl2 =>
      simp [allPlain, List.all_cons, CElem.isEbnfB] at h

/-- Draining a worklist of plain productions emits them in reverse order
without touching the name state. -/
theorem convertSingleGo_allPlain {σ : Type} (alloc : σ → String → String × σ) :
    ∀ (fuel : Nat) (cache : List ComplexProduction) (s : σ)
      (ret : List ComplexProduction),
    cache.length ≤ fuel → (∀ q ∈ cache, allPlain q.expr = true) →
    convertSingleGo alloc fuel s cache ret = (ret ++ cache.reverse, s) := by
  intro fuel
  induction fuel with
  | zero =>
    intro cache s ret hlen _
    have : cache = [] := List.eq_nil_of_length_eq_zero (Nat.le_zero.mp hlen)
    subst this
    simp [convertSingleGo]
  | succ fuel ih =>
    intro cache s ret hlen hplain
    rcases List.eq_nil_or_concat cache with rfl | ⟨pre, last, rfl⟩
    · simp [convertSingleGo]
    · have hlast : (pre.concat last).getLast? = some last := by
        simp [List.concat_eq_append]
      have hdrop : (pre.concat last).dropLast = pre := by
        simp [List.concat_eq_append]
      have hmem : last ∈ pre.concat last := by
        simp [List.concat_eq_append]
      have hfind : findEbnf last.expr = none :=
        findEbnfGo_of_allPlain last.expr (hplain last hmem) 0 []
      have hlen2 : pre.length ≤ fuel := by
        simp only [List.concat_eq_append, List.length_append, List.length_singleton] at hlen
        omega
      have hplain2 : ∀ q ∈ pre, allPlain q.expr = true := fun q hq =>
        hplain q (by simp [List.concat_eq_append, hq])
      calc convertSingleGo alloc (fuel + 1) s (pre.concat last) ret
          = convertSingleGo alloc fuel s pre (ret ++ [last]) := by
            simp only [convertSingleGo, hlast, hdrop, hfind]
        _ = (ret ++ [last] ++ pre.reverse, s) := ih pre s (ret ++ [last]) hlen2 hplain2
        _ = (ret ++ (pre.concat last).reverse, s) := by
            simp [List.concat_eq_append, List.reverse_append]

/-- C5 amended: lowering Head → α repeat(X1 | … | Xn) β synthesizes the
fresh non-terminal pre (from the name allocator at Head_RPT_PRE_0) with
the productions pre → α carrying the collect adapter (so pre → ε exactly
when the repeat element is leftmost) and pre → pre Xj carrying the append
adapter for every inner alternative, and rewrites the outer production to
Head → pre β with the apply adapter. -/
theorem c5_repeat_lowering {σ : Type} (alloc : σ → String → String × σ)
    (s s2 : σ) (head dashed : String) (act : Option (Nat ⊕ HandlerModifier))
    (α β : List CElem) (mlt : Option Int) (plist : List (List CElem))
    (hα : allPlain α = true) (hβ : allPlain β = true)
    (hpl : ∀ pl ∈ plist, allPlain pl = true)
    (halloc : alloc s (head ++ "_RPT_PRE_0") = (dashed, s2)) :
    convertSingle alloc (plist.length + 3) s
      ⟨head, α ++ CElem.ebnf .repeat mlt plist :: β, act⟩
    = (rptApplyProd head dashed act β
       :: plist.reverse.map (fun pl => rptAppendProd dashed pl)
       ++ [rptCollectProd dashed α], s2) := by
  have hfind : findEbnf (α ++ CElem.ebnf .repeat mlt plist :: β)
      = some (α.length, α, .repeat, mlt, plist, β) := by
    simpa [findEbnf] using findEbnfGo_append .repeat mlt plist β α hα 0 []
  have hstep : convertStep alloc s
      ⟨head, α ++ CElem.ebnf .repeat mlt plist :: β, act⟩
      α.length α .repeat mlt plist β
      = (rptCollectProd dashed α
         :: plist.map (fun pl => rptAppendProd dashed pl)
         ++ [rptApplyProd head dashed act β], s2) := by
    simp only [convertStep, halloc, rptCollectProd, rptAppendProd, rptApplyProd]
  have hplain2 : ∀ q ∈ (rptCollectProd dashed α
      :: plist.map (fun pl => rptAppendProd dashed pl)
      ++ [rptApplyProd head dashed act β]), allPlain q.expr = true := by
    intro q hq
    rcases List.mem_cons.mp hq with rfl | hq2
    · exact hα
    · rcases List.mem_append.mp hq2 with hq3 | hq4
      · obtain ⟨pl, hpl2, rfl⟩ := List.mem_map.mp hq3
        simpa [rptAppendProd, allPlain, List.all_cons, CElem.isEbnfB] using hpl pl hpl2
      · rcases List.mem_singleton.mp hq4 with rfl
        simpa [rptApplyProd, allPlain, List.all_cons, CElem.isEbnfB] using hβ
  have h1 : convertSingle alloc (plist.length + 3) s
      ⟨head, α ++ CElem.ebnf .repeat mlt plist :: β, act⟩
      = convertSingleGo alloc (plist.length + 2) s2
        (rptCollectProd dashed α
         :: plist.map (fun pl => rptAppendProd dashed pl)
         ++ [rptApplyProd head dashed act β]) [] := by
    unfold convertSingle
    rw [show plist.length + 3 = (plist.length + 2) + 1 from rfl]
    rw [convertSingleGo]
    simp only [List.getLast?, List.getLast_singleton, List.dropLast, hfind, hstep,
      List.nil_append]
  rw [h1, convertSingleGo_allPlain alloc (plist.length + 2) _ s2 [] (by simp) hplain2]
  simp [List.reverse_append, List.map_reverse]

/-- C5 counterexample: lowering S → a repeat(X) b emits the collect
production S_RPT_PRE_0 → a (the prefix before the repeat element), not
S_RPT_PRE_0 → ε; no emitted production has an empty body. -/
theorem c5_collect_production_not_epsilon :
    (convertSingle (getNameAlloc ["a", "b", "X"]) 4 ["S"] c5Input).1
    = [rptApplyProd "S" "S_RPT_PRE_0" (some (.inl 0)) [CElem.bnf (.identifier "b")],
       rptAppendProd "S_RPT_PRE_0" [CElem.bnf (.identifier "X")],
       rptCollectProd "S_RPT_PRE_0" [CElem.bnf (.identifier "a")]]
    ∧ ((convertSingle (getNameAlloc ["a", "b", "X"]) 4 ["S"] c5Input).1.all
        (fun q => !q.expr.isEmpty)) = true := by
  exact ⟨rfl, rfl⟩

/-- Concrete instantiation witnessing C5 as amended, with the real
fresh-name allocator; the name-increment loop is also exercised on a
colliding candidate. -/
theorem c5_repeat_lowering_witness :
    getNameAlloc ["a", "b", "X"] ["S"] ("S" ++ "_RPT_PRE_0")
      = ("S_RPT_PRE_0", ["S", "S_RPT_PRE_0"])
    ∧ convertSingle (getNameAlloc ["a", "b", "X"]) 4 ["S"]
        ⟨"S", [CElem.bnf (.identifier "a")] ++
          CElem.ebnf .repeat none [[CElem.bnf (.identifier "X")]] ::
          [CElem.bnf (.identifier "b")], some (.inl 0)⟩
      = (rptApplyProd "S" "S_RPT_PRE_0" (some (.inl 0)) [CElem.bnf (.identifier "b")]
         :: [[CElem.bnf (.identifier "X")]].reverse.map (fun pl => rptAppendProd "S_RPT_PRE_0" pl)
         ++ [rptCollectProd "S_RPT_PRE_0" [CElem.bnf (.identifier "a")]],
         ["S", "S_RPT_PRE_0"])
    ∧ getNameAlloc ["a"] ["S", "S_RPT_PRE_0"] "S_RPT_PRE_0"
      = ("S_RPT_PRE_1", ["S", "S_RPT_PRE_0", "S_RPT_PRE_1"]) := by
  refine ⟨rfl, ?_, rfl⟩
  exact c5_repeat_lowering (getNameAlloc ["a", "b", "X"]) ["S"]
    ["S", "S_RPT_PRE_0"] "S" "S_RPT_PRE_0" (some (.inl 0))
    [CElem.bnf (.identifier "a")] [CElem.bnf (.identifier "b")] none
    [[CElem.bnf (.identifier "X")]] rfl rfl
    (fun pl hpl => by rcases List.mem_singleton.mp hpl with rfl; rfl) rfl

/-! ## Claim C6 -/

/-- A non-epsilon symbol survives the name/isNT projection and rebuild. -/
theorem symbolRec_roundtrip (s : GSymbol) (h : s ≠ GSymbol.epsSym) :
    (if isNonTerminal s then GSymbol.nt s.name else GSymbol.t s.name) = s := by
  cases s with
  | t n => rfl
  | nt n => rfl
  | epsSym => exact absurd rfl h

/-- C6: when serialized handlers decode back to themselves (the situation
for handlers without impurity violations) the parser round-trip
reconstructs the identical action table, goto table, actionMode, handler
array, startState, symbols and symbolsTable, and hence parses every
stream to the same result; the lexer round-trip likewise reconstructs the
identical records, EOF name, EOF sentinel value and dummy handler, and
hence tokenizes identically. -/
theorem c6_serialize_roundtrip {F G H : Type}
    (sf : PHandler → F) (df : F → PHandler) (hfd : ∀ h, df (sf h) = h)
    (p : ParsedGrammar) (hsym : GSymbol.epsSym ∉ p.symbols)
    (sfl : THandler → G) (dfl : G → THandler) (hfl : ∀ h, dfl (sfl h) = h)
    (sgn : TNameSel → H) (dgn : H → TNameSel) (hgn : ∀ n, dgn (sgn n) = n)
    (compileRe : String → String → (String → Nat → Option ReMatch))
    (l : LexerM)
    (hre : ∀ r ∈ l.records, ∀ src fl m, r.pat = LexPat.re src fl m →
      fl ≠ "" ∧ compileRe src fl = m)
    (heof : l.eofName ≠ "") :
    deserializeParser df (serializeParser sf p) = p
    ∧ (∀ wta fuel, parseRun (deserializeParser df (serializeParser sf p)) wta fuel
        = parseRun p wta fuel)
    ∧ deserializeLexer compileRe dfl dgn (serializeLexer sfl sgn l) = l
    ∧ (∀ str pos adv fuel,
        nextToken (deserializeLexer compileRe dfl dgn (serializeLexer sfl sgn l))
          str pos adv fuel
        = nextToken l str pos adv fuel) := by
  have hparser : deserializeParser df (serializeParser sf p) = p := by
    obtain ⟨action, goto, actionMode, actions, startState, symbols, symbolsTable⟩ := p
    simp only [serializeParser, deserializeParser, List.map_map]
    congr 1
    · calc actions.map ((fun a => a.map df) ∘ (fun a => a.map sf))
          = actions.map id := List.map_congr_left (fun a _ => by
            cases a with
            | none => rfl
            | some h => simp [hfd])
        _ = actions := List.map_id actions
    · calc symbols.map ((fun r : SymbolRec =>
            if r.isNT then GSymbol.nt r.name else GSymbol.t r.name) ∘
              (fun s => (⟨s.name, isNonTerminal s⟩ : SymbolRec)))
          = symbols.map id := List.map_congr_left (fun s hs =>
            symbolRec_roundtrip s (fun he => hsym (he ▸ hs)))
        _ = symbols := List.map_id symbols
  have hlexer : deserializeLexer compileRe dfl dgn (serializeLexer sfl sgn l) = l := by
    obtain ⟨records, eofName, eofValue, dummyHandler⟩ := l
    simp only [serializeLexer, deserializeLexer, mkLexer, List.map_map]
    congr 1
    · apply List.ext_get?_iff.mpr
      intro n
      simp only [List.get?_map, List.get?_enum, List.map_map]
      cases hn : records.get? n with
      | none => rfl
      | some r =>
        have hmem : r ∈ records := List.get?_mem hn
        obtain ⟨rname, rpat, rf, rn⟩ := r
        have hn2 : records[n]? = some ⟨rname, rpat, rf, rn⟩ := by
          rw [← List.get?_eq_getElem?]
          exact hn
        cases rpat with
        | lit s =>
          cases rn with
          | none => simp [hn2, hfl]
          | some nsel => simp [hn2, hfl, hgn]
        | re src fl m =>
          obtain ⟨hne, hcomp⟩ := hre _ hmem src fl m rfl
          cases rn with
          | none => simp [hn2, hfl, normFlags, hne, hcomp]
          | some nsel => simp [hn2, hfl, hgn, normFlags, hne, hcomp]
    · simp only [if_neg heof]
    · exact hfl dummyHandler
  refine ⟨hparser, fun wta fuel => by rw [hparser], hlexer,
    fun str pos adv fuel => by rw [hlexer]⟩

/-- Concrete instantiation witnessing C6 with identity function
serializers. -/
theorem c6_serialize_roundtrip_witness :
    GSymbol.epsSym ∉ c6P.symbols
    ∧ deserializeParser (fun h => h) (serializeParser (fun h => h) c6P) = c6P
    ∧ deserializeLexer (fun _ _ _ _ => none) (fun h => h) (fun n => n)
        (serializeLexer (fun h => h) (fun n => n) c6L) = c6L := by
  have h := c6_serialize_roundtrip (fun h => h) (fun h => h) (fun _ => rfl)
    c6P (by decide)
    (fun h => h) (fun h => h) (fun _ => rfl)
    (fun n => n) (fun n => n) (fun _ => rfl)
    (fun _ _ _ _ => none) c6L
    (fun r hr src fl m hpat => by
      rcases List.mem_singleton.mp hr with rfl
      exact nomatch hpat)
    (by decide)
  exact ⟨by decide, h.1, h.2.2.1⟩

/-! ## Claim C7 -/

/-- The outcome produced by firstMatch carries the advance flag of the
call. -/
theorem firstMatch_advanced :
    ∀ (recs : List LexerRecord) (str : String) (pos : Int) (adv : Bool)
      (r : LexerRecord) (mo : MatchOutcome),
    firstMatch str pos adv recs = some (r, mo) → mo.advanced = adv := by
  intro recs
  induction recs with
  | nil => intro str pos adv r mo h; exact nomatch h
  | cons rec rest ih =>
    intro str pos adv r mo h
    simp only [firstMatch] at h
    cases hr : tryRecord str pos adv rec.pat with
    | some mo2 =>
      rw [hr] at h
      obtain ⟨rfl, rfl⟩ : rec = r ∧ mo2 = mo := by
        injection h with h2
        injection h2 with ha hb
        exact ⟨ha, hb⟩
      cases hp : rec.pat with
      | re src fl matcher =>
        rw [hp] at hr
        simp only [tryRecord] at hr
        cases hm : matcher str pos.toNat with
        | some m => rw [hm] at hr; injection hr with hr2; rw [← hr2]
        | none => rw [hm] at hr; exact nomatch hr
      | lit s =>
        rw [hp] at hr
        simp only [tryRecord] at hr
        by_cases hs : strStartsWithAt str s pos = true
        · rw [if_pos hs] at hr; injection hr with hr2; rw [← hr2]
        · rw [if_neg hs] at hr; exact nomatch hr
    | none =>
      rw [hr] at h
      exact ih str pos adv r mo h

/-- C7 amended: a successful match that leaves the position unchanged is a
fatal zero-length lexer error when nextToken advances; when called with
advance false (peek), the same match is returned as an ordinary token. -/
theorem c7_zero_length_only_when_advancing (l : LexerM) (str : String)
    (rec : List Nat) (fuel : Nat) (pos : Int)
    (hlo : 0 ≤ pos) (hhi : pos < (str.length : Int)) :
    (∀ r mo, firstMatch str pos true l.records = some (r, mo) →
      mo.newPos = pos →
      nextTokenGo l str rec (fuel + 1) pos true
        = .error (.zeroLength pos (getLCIndex rec pos true false)))
    ∧ (∀ r mo, firstMatch str pos false l.records = some (r, mo) →
      r.n = none →
      nextTokenGo l str rec (fuel + 1) pos false
        = .ok ({ name := r.name, lexeme := mo.lexeme,
                 value := r.f mo.lexeme mo.lexemeIndex mo.arr,
                 position := some mo.lexemeIndex,
                 pos := some (getLCIndex rec mo.lexemeIndex true false) },
               mo.newPos)) := by
  have hnot1 : ¬(pos < 0 ∨ (str.length : Int) < pos) := by
    push_neg
    exact ⟨hlo, le_of_lt hhi⟩
  have hnot2 : ¬((str.length : Int) ≤ pos) := not_le.mpr hhi
  constructor
  · intro r mo hm hz
    have hadv : mo.advanced = true := firstMatch_advanced l.records str pos true r mo hm
    simp [nextTokenGo, hnot1, hnot2, hm, hadv, hz]
  · intro r mo hm hn
    have hadv : mo.advanced = false := firstMatch_advanced l.records str pos false r mo hm
    simp [nextTokenGo, hnot1, hnot2, hm, hadv, hn]

/-- C7 counterexample: with advance false (peek) the zero-length match is
returned as a token instead of raising the fatal lexer error that the
advancing call raises. -/
theorem c7_peek_returns_zero_length_token :
    nextToken c7Lexer "ab" 0 false 5
      = .ok ({ name := "A", lexeme := "", value := .str "",
               position := some 0, pos := some ⟨1, 0⟩ }, 0)
    ∧ nextToken c7Lexer "ab" 0 true 5 = .error (.zeroLength 0 ⟨1, 0⟩) := by
  exact ⟨rfl, rfl⟩

/-- Concrete instantiation witnessing C7 as amended on the zero-length
regex lexer. -/
theorem c7_zero_length_witness :
    (0 : Int) ≤ 0
    ∧ nextTokenGo c7Lexer "ab" [0] 5 0 true = .error (.zeroLength 0 ⟨1, 0⟩)
    ∧ nextTokenGo c7Lexer "ab" [0] 5 0 false
      = .ok ({ name := "A", lexeme := "", value := .str "",
               position := some 0, pos := some ⟨1, 0⟩ }, 0) := by
  have h := c7_zero_length_only_when_advancing c7Lexer "ab" [0] 4 0
    (le_refl 0) (by decide)
  refine ⟨le_refl 0, ?_, ?_⟩
  · exact h.1 _ _ rfl rfl
  · exact h.2 _ _ rfl rfl

/-! ## Claim C8 -/

/-- A successful literal prefix match lies inside the input. -/
theorem strStartsWithAt_bounds (str pat : String) (pos : Int)
    (h : strStartsWithAt str pat pos = true) (hne : pat ≠ "") :
    0 ≤ pos ∧ pos.toNat + pat.length ≤ str.length := by
  unfold strStartsWithAt at h
  obtain ⟨h0, heq⟩ := Bool.and_eq_true_iff.mp h
  have h0p : 0 ≤ pos := of_decide_eq_true h0
  have heq2 : (str.data.drop pos.toNat).take pat.data.length = pat.data :=
    eq_of_beq heq
  have hlen : ((str.data.drop pos.toNat).take pat.data.length).length
      = pat.data.length := by rw [heq2]
  rw [List.length_take, List.length_drop] at hlen
  have hpos : 0 < pat.length := by
    cases hlp : pat.length with
    | zero => exact absurd (String.ext (by
        have : pat.data.length = 0 := hlp
        have hd : pat.data = [] := List.eq_nil_of_length_eq_zero this
        simp [hd])) hne
    | succ n => omega
  refine ⟨h0p, ?_⟩
  have hmin : min pat.data.length (str.data.length - pos.toNat) = pat.data.length := hlen
  have hdlen : pat.data.length = pat.length := rfl
  have hslen : str.data.length = str.length := rfl
  omega

/-- The record returned by firstMatch is one of the rules and its outcome
is that of tryRecord. -/
theorem firstMatch_spec :
    ∀ (recs : List LexerRecord) (str : String) (pos : Int) (adv : Bool)
      (r : LexerRecord) (mo : MatchOutcome),
    firstMatch str pos adv recs = some (r, mo) →
    r ∈ recs ∧ tryRecord str pos adv r.pat = some mo := by
  intro recs
  induction recs with
  | nil => intro str pos adv r mo h; exact nomatch h
  | cons rec rest ih =>
    intro str pos adv r mo h
    simp only [firstMatch] at h
    cases hr : tryRecord str pos adv rec.pat with
    | some mo2 =>
      rw [hr] at h
      obtain ⟨rfl, rfl⟩ : rec = r ∧ mo2 = mo := by
        injection h with h2
        injection h2 with ha hb
        exact ⟨ha, hb⟩
      exact ⟨List.mem_cons_self _ _, hr⟩
    | none =>
      rw [hr] at h
      obtain ⟨hmem, htr⟩ := ih str pos adv r mo h
      exact ⟨List.mem_cons_of_mem _ hmem, htr⟩

/-- On a well-behaved lexer, a successful advancing first match moves the
position strictly forward and stays inside the input. -/
theorem firstMatch_progress (l : LexerM) (str : String)
    (hwb : WellBehaved l str) (pos : Int) (hlo : 0 ≤ pos)
    (r : LexerRecord) (mo : MatchOutcome)
    (hm : firstMatch str pos true l.records = some (r, mo)) :
    pos < mo.newPos ∧ mo.newPos ≤ (str.length : Int) := by
  obtain ⟨hmem, htr⟩ := firstMatch_spec l.records str pos true r mo hm
  obtain ⟨hre, hlit⟩ := hwb r hmem
  cases hp : r.pat with
  | re src fl matcher =>
    rw [hp] at htr
    simp only [tryRecord] at htr
    cases hmt : matcher str pos.toNat with
    | some m =>
      rw [hmt] at htr
      obtain ⟨h1, h2⟩ := hre src fl matcher hp pos.toNat m hmt
      injection htr with htr2
      have hnp : mo.newPos = (m.lastIndex : Int) := by
        rw [← htr2]
        simp
      have hc : (pos.toNat : Int) = pos := Int.toNat_of_nonneg hlo
      rw [hnp]
      omega
    | none => rw [hmt] at htr; exact nomatch htr
  | lit s =>
    rw [hp] at htr
    simp only [tryRecord] at htr
    by_cases hs : strStartsWithAt str s pos = true
    · rw [if_pos hs] at htr
      injection htr with htr2
      have hnp : mo.newPos = pos + (s.length : Int) := by
        rw [← htr2]
        simp
      have hne : s ≠ "" := hlit s hp
      obtain ⟨_, hbound⟩ := strStartsWithAt_bounds str s pos hs hne
      have hlen : 0 < s.length := by
        cases hlp : s.length with
        | zero => exact absurd (String.ext (by
            have : s.data.length = 0 := hlp
            have hd : s.data = [] := List.eq_nil_of_length_eq_zero this
            simp [hd])) hne
        | succ n => omega
      have hc : (pos.toNat : Int) = pos := Int.toNat_of_nonneg hlo
      rw [hnp]
      constructor
      · omega
      · omega
    · rw [if_neg hs] at htr; exact nomatch htr

/-- On a well-behaved lexer, an advancing nextToken that returns keeps the
position inside the input and advances it strictly while input remains. -/
theorem nextTokenGo_progress (l : LexerM) (str : String) (rec : List Nat)
    (hwb : WellBehaved l str) :
    ∀ (fuel : Nat) (pos : Int) (t : PToken) (p2 : Int),
    0 ≤ pos → pos ≤ (str.length : Int) →
    nextTokenGo l str rec fuel pos true = .ok (t, p2) →
    0 ≤ p2 ∧ p2 ≤ (str.length : Int) ∧ pos ≤ p2
      ∧ (pos < (str.length : Int) → pos < p2) := by
  intro fuel
  induction fuel with
  | zero => intro pos t p2 _ _ h; exact nomatch h
  | succ fuel ih =>
    intro pos t p2 hlo hhi h
    have hnot1 : ¬(pos < 0 ∨ (str.length : Int) < pos) := by
      push_neg; exact ⟨hlo, hhi⟩
    simp only [nextTokenGo] at h
    rw [if_neg hnot1] at h
    by_cases heof : (str.length : Int) ≤ pos
    · rw [if_pos heof] at h
      injection h with h2
      injection h2 with _ h3
      subst h3
      exact ⟨hlo, hhi, le_refl _, fun hc => absurd hc (not_lt.mpr heof)⟩
    · rw [if_neg heof] at h
      have hinlt : pos < (str.length : Int) := lt_of_not_le heof
      cases hm : firstMatch str pos true l.records with
      | none =>
        simp only [hm] at h
        exact nomatch h
      | some pr =>
        obtain ⟨r, mo⟩ := pr
        simp only [hm] at h
        obtain ⟨hprog, hbound⟩ := firstMatch_progress l str hwb pos hlo r mo hm
        rw [if_neg (fun hc => absurd hc.2 (ne_of_gt hprog))] at h
        have hlo2 : 0 ≤ mo.newPos := le_trans hlo (le_of_lt hprog)
        cases hn : r.n with
        | none =>
          simp only [hn] at h
          injection h with h2
          injection h2 with _ h3
          subst h3
          exact ⟨hlo2, hbound, le_of_lt hprog, fun _ => hprog⟩
        | some nsel =>
          simp only [hn] at h
          cases hsel : nsel (r.f mo.lexeme mo.lexemeIndex mo.arr) mo.lexeme with
          | none =>
            simp only [hsel] at h
            obtain ⟨g0, g1, g2, _⟩ := ih mo.newPos t p2 hlo2 hbound h
            exact ⟨g0, g1, le_trans (le_of_lt hprog) g2,
              fun _ => lt_of_lt_of_le hprog g2⟩
          | some rn =>
            simp only [hsel] at h
            injection h with h2
            injection h2 with _ h3
            subst h3
            exact ⟨hlo2, hbound, le_of_lt hprog, fun _ => hprog⟩

/-- C8 amended: on a lexer whose rules match only non-empty in-bounds
lexemes, every advancing nextToken call that returns keeps the position
within the input and advances it strictly while input remains; hence k
repeated calls either raise a LexerError or drive the position to at
least min(end, pos + k), so end-of-input is reached within input-length
calls; and once the position sits at end-of-input every call returns the
EOF token carrying the configured eofName and eofValue, leaving the
position unchanged. -/
theorem c8_eventual_eof (l : LexerM) (str : String) (rec : List Nat)
    (hwb : WellBehaved l str) (fuel : Nat) :
    (∀ pos t p2, 0 ≤ pos → pos ≤ (str.length : Int) →
      nextTokenGo l str rec fuel pos true = .ok (t, p2) →
      p2 ≤ (str.length : Int) ∧ pos ≤ p2 ∧ (pos < (str.length : Int) → pos < p2))
    ∧ (∀ (k : Nat) (pos p : Int), 0 ≤ pos → pos ≤ (str.length : Int) →
      advanceK l str rec fuel k pos = .ok p →
      (str.length : Int) ≤ p ∨ pos + k ≤ p)
    ∧ (∀ pos, 0 ≤ pos → pos = (str.length : Int) →
      nextTokenGo l str rec (fuel + 1) pos true
        = .ok ({ name := l.eofName, value := l.eofValue, lexeme := l.eofName,
                 position := some pos,
                 pos := some (getLCIndex rec pos true false) }, pos)) := by
  refine ⟨?_, ?_, ?_⟩
  · intro pos t p2 hlo hhi h
    obtain ⟨_, g1, g2, g3⟩ := nextTokenGo_progress l str rec hwb fuel pos t p2 hlo hhi h
    exact ⟨g1, g2, g3⟩
  · intro k
    induction k with
    | zero =>
      intro pos p hlo hhi h
      injection h with h2
      subst h2
      right
      simp
    | succ k ih =>
      intro pos p hlo hhi h
      rw [show advanceK l str rec fuel (k + 1) pos
          = (match nextTokenGo l str rec fuel pos true with
             | .error e => .error e
             | .ok (_, p2) => advanceK l str rec fuel k p2) from rfl] at h
      cases hstep : nextTokenGo l str rec fuel pos true with
      | error e => rw [hstep] at h; exact nomatch h
      | ok res =>
        obtain ⟨t, p2⟩ := res
        rw [hstep] at h
        obtain ⟨g0, g1, g2, g3⟩ :=
          nextTokenGo_progress l str rec hwb fuel pos t p2 hlo hhi hstep
        rcases ih p2 p g0 g1 h with hend | hstepk
        · exact Or.inl hend
        · by_cases hfull : pos < (str.length : Int)
          · right
            have := g3 hfull
            omega
          · left
            have : (str.length : Int) ≤ pos := not_lt.mp hfull
            omega
  · intro pos hlo heq
    have hnot1 : ¬(pos < 0 ∨ (str.length : Int) < pos) := by
      push_neg; exact ⟨hlo, le_of_eq heq⟩
    show (if pos < 0 ∨ (str.length : Int) < pos then _
      else if (str.length : Int) ≤ pos then _ else _) = _
    rw [if_neg hnot1, if_pos (le_of_eq heq.symm)]

/-- C8 counterexample: on input b the lexer raises UnknownToken at every
call and the position never moves, so repeated nextToken calls never
return the EOF token, refuting the claim for arbitrary input strings. -/
theorem c8_unknown_token_never_eof :
    nextToken c8Lexer "b" 0 true 9 = .error (.unknownToken 0 ⟨1, 0⟩)
    ∧ ¬(∃ (k : Nat) (p : Int),
        advanceK c8Lexer "b" (getLinePositions "b") 9 k 0 = .ok p
        ∧ (1 : Int) ≤ p) := by
  constructor
  · rfl
  · rintro ⟨k, p, hk, hp⟩
    cases k with
    | zero =>
      injection hk with h2
      subst h2
      exact absurd hp (by decide)
    | succ k =>
      have hstep : advanceK c8Lexer "b" (getLinePositions "b") 9 (k + 1) 0
          = .error (.unknownToken 0 ⟨1, 0⟩) := rfl
      rw [hstep] at hk
      exact nomatch hk

/-- Concrete instantiation witnessing C8 as amended: at end-of-input the
call returns the EOF token with the configured name and sentinel value. -/
theorem c8_eventual_eof_witness :
    WellBehaved c8Lexer "aa"
    ∧ nextTokenGo c8Lexer "aa" [0] 10 2 true
      = .ok ({ name := "EOF", value := .str "EOF", lexeme := "EOF",
               position := some 2, pos := some (getLCIndex [0] 2 true false) }, 2) := by
  have hwb : WellBehaved c8Lexer "aa" := by
    intro r hr
    rcases List.mem_singleton.mp hr with rfl
    constructor
    · intro src fl matcher hpat
      exact nomatch hpat
    · intro s hpat
      injection hpat with h2
      subst h2
      decide
  refine ⟨hwb, ?_⟩
  exact (c8_eventual_eof c8Lexer "aa" [0] hwb 9).2.2 2 (by decide) (by decide)

/-! ## Claim C9 -/

/-- C9 amended: every successful parse returns the value of the top frame
of the final stack; on the generated parser for S → a the final stack at
Accept holds two frames (the seed frame and the start symbol frame) and
the returned value is the start symbol handler result, equal to the top
frame value. -/
theorem c9_accept_value_and_stack :
    (∀ (p : ParsedGrammar) (wta : WrappedTokenArray) (fuel : Nat)
       (stack : List PFrame) (a : PToken) (sidx : Nat) (v : JVal)
       (fs : List PFrame),
      parseLoop p wta fuel stack a sidx = .ok (v, fs) →
      ∃ fr, fs.getLast? = some fr ∧ v = fr.i.value)
    ∧ (LRGeneratorRun c9Grammar 80).map (fun pg =>
        (parseRun pg c9Stream 50).map (fun r =>
          (r.1, r.2.length, (r.2.getLast?).map (fun fr => fr.i.value))))
      = .ok (.ok (.str "AV", 2, some (.str "AV"))) := by
  constructor
  · intro p wta fuel
    induction fuel with
    | zero => intro stack a sidx v fs h; exact nomatch h
    | succ fuel ih =>
      intro stack a sidx v fs h
      simp only [parseLoop] at h
      cases hl : stack.getLast? with
      | none =>
        simp only [hl] at h
        exact nomatch h
      | some top =>
        simp only [hl] at h
        cases hc : actionCell p wta top.s a with
        | none =>
          simp only [hc] at h
          split at h <;> exact nomatch h
        | some act =>
          simp only [hc] at h
          cases act with
          | error msg => exact nomatch h
          | shift s2 => exact ih _ _ _ _ _ h
          | accept =>
            injection h with h2
            injection h2 with hv hfs
            exact ⟨top, hfs ▸ hl, hv.symm⟩
          | reduce hd ln pi =>
            cases hr : reduceStep p stack hd ln pi with
            | error e =>
              simp only [hr] at h
              exact nomatch h
            | ok stack2 =>
              simp only [hr] at h
              exact ih _ _ _ _ _ h
  · rfl

/-- C9 counterexample: the successful parse of a via the generated S → a
parser terminates with a two-frame stack, not a one-frame stack. -/
theorem c9_final_stack_not_one_frame :
    (LRGeneratorRun c9Grammar 80).map (fun pg =>
      (parseRun pg c9Stream 50).map (fun r => r.2.length))
      = .ok (.ok 2)
    ∧ (2 : Nat) ≠ 1 := by
  exact ⟨rfl, by decide⟩

/-- Concrete instantiation witnessing C9 as amended. -/
theorem c9_accept_value_witness :
    parseLoop c9AcceptP c9EmptyStream 5 [⟨0, wtaEOF "<<EOF>>"⟩]
      (wtaEOF "<<EOF>>") 0
      = .ok (.str "<<EOF>>", [⟨0, wtaEOF "<<EOF>>"⟩])
    ∧ ∃ fr, ([(⟨0, wtaEOF "<<EOF>>"⟩ : PFrame)]).getLast? = some fr
        ∧ (JVal.str "<<EOF>>") = fr.i.value := by
  refine ⟨rfl, ?_⟩
  exact c9_accept_value_and_stack.1 c9AcceptP c9EmptyStream 5
    [⟨0, wtaEOF "<<EOF>>"⟩] (wtaEOF "<<EOF>>") 0 (.str "<<EOF>>")
    [⟨0, wtaEOF "<<EOF>>"⟩] rfl

end Jalsp
